import Mathlib

/-!
# Verification of the ccusage-to-ClickHouse importer

Shallow embedding, in Lean 4, of the core of the `ccusage-import` repository:
the pseudonymisation hash (`hash_project_name`), the payload fingerprint
(`_calculate_data_hash`), the five idempotent upsert operations of
`ccusage_importer.py`, the parallel fetch orchestrator
(`fetch_ccusage_data_parallel` / `run_ccusage_command`), the raw-event
aggregator (`_aggregate_opencode_messages`), and the identical-import check of
the pipeline controllers.

Conventions of the embedding:

* Python `int` values become `Int` (or `Nat` where the source guarantees
  non-negativity by construction); 32-bit hash arithmetic is `Nat` with an
  explicit `% 2 ^ 32`.
* Python `float` cost values become exact rationals `ℚ`; the repository only
  adds and compares them.
* The wall clock (`datetime.now()`) is threaded explicitly as a `now : Nat`
  parameter.
* The ClickHouse store is explicit state: one list of rows per table, and
  every store round trip (command / insert) is recorded in a trace so that
  "issues zero store calls" is observable.
* `hashlib.sha256` and `hashlib.md5` are embedded as executable pure
  functions (FIPS 180-4 and RFC 1321 over byte lists).
-/

/-! ## Byte and hex utilities -/

/-- 2^32, the modulus of all 32-bit hash arithmetic. -/
def pow32 : Nat := 4294967296

/-- Hex character of a nibble: `0`–`9` then `a`–`f` (Python `hexdigest` is
lowercase). -/
def hexChar (n : Nat) : Char :=
  if n < 10 then Char.ofNat (48 + n) else Char.ofNat (87 + n)

/-- Lowercase hex rendering of a byte list, two characters per byte. -/
def hexOfBytes : List Nat → List Char
  | [] => []
  | b :: bs => hexChar (b / 16) :: hexChar (b % 16) :: hexOfBytes bs

/-- Big-endian 4-byte serialisation of a 32-bit word. -/
def bytesBE4 (w : Nat) : List Nat :=
  [w / 16777216 % 256, w / 65536 % 256, w / 256 % 256, w % 256]

/-- Big-endian 8-byte serialisation of a 64-bit length field. -/
def bytesBE8 (n : Nat) : List Nat :=
  [n / 72057594037927936 % 256, n / 281474976710656 % 256,
   n / 1099511627776 % 256, n / 4294967296 % 256,
   n / 16777216 % 256, n / 65536 % 256, n / 256 % 256, n % 256]

/-- Little-endian 4-byte serialisation of a 32-bit word (MD5 convention). -/
def bytesLE4 (w : Nat) : List Nat :=
  [w % 256, w / 256 % 256, w / 65536 % 256, w / 16777216 % 256]

/-- Little-endian 8-byte serialisation of a 64-bit length field. -/
def bytesLE8 (n : Nat) : List Nat :=
  [n % 256, n / 256 % 256, n / 65536 % 256, n / 16777216 % 256,
   n / 4294967296 % 256, n / 1099511627776 % 256,
   n / 281474976710656 % 256, n / 72057594037927936 % 256]

/-- UTF-8 encoding of one Unicode scalar value, as its byte values.
Models Python `str.encode("utf-8")` character by character. -/
def utf8EncodeCharNat (c : Char) : List Nat :=
  let n := c.toNat
  if n < 128 then [n]
  else if n < 2048 then [192 + n / 64, 128 + n % 64]
  else if n < 65536 then [224 + n / 4096, 128 + n / 64 % 64, 128 + n % 64]
  else [240 + n / 262144, 128 + n / 4096 % 64, 128 + n / 64 % 64, 128 + n % 64]

/-- UTF-8 encoding of a string as a byte list. -/
def utf8Encode (s : String) : List Nat :=
  (s.data.map utf8EncodeCharNat).flatten

/-- Right rotation of a 32-bit word. -/
def rotr32 (x s : Nat) : Nat :=
  (x % pow32 / 2 ^ s + x % pow32 % 2 ^ s * 2 ^ (32 - s)) % pow32

/-- Left rotation of a 32-bit word. -/
def rotl32 (x s : Nat) : Nat :=
  (x % pow32 * 2 ^ s + x % pow32 / 2 ^ (32 - s)) % pow32

/-- 32-bit complement. -/
def not32 (x : Nat) : Nat := x % pow32 ^^^ 4294967295

/-- Split a byte list into 64-byte blocks. -/
def chunks64 (l : List Nat) : List (List Nat) :=
  if _h : l = [] then []
  else l.take 64 :: chunks64 (l.drop 64)
termination_by l.length
decreasing_by
  simp only [List.length_drop]
  exact Nat.sub_lt (List.length_pos.mpr _h) (by norm_num)

/-! ## SHA-256 (FIPS 180-4), the engine behind `hashlib.sha256` used by
`hash_project_name` -/

/-- The eight-word SHA-256 working state. -/
structure Sha256State where
  a : Nat
  b : Nat
  c : Nat
  d : Nat
  e : Nat
  f : Nat
  g : Nat
  h : Nat
deriving DecidableEq, Repr

/-- SHA-256 initial hash value. -/
def sha256IV : Sha256State :=
  ⟨0x6a09e667, 0xbb67ae85, 0x3c6ef372, 0xa54ff53a,
   0x510e527f, 0x9b05688c, 0x1f83d9ab, 0x5be0cd19⟩

/-- The 64 SHA-256 round constants of FIPS 180-4 (0x428a2f98, 0x71374491, ...,
0xc67178f2), written in decimal. -/
def sha256K : List Nat :=
  [1116352408, 1899447441, 3049323471, 3921009573, 961987163, 1508970993,
   2453635748, 2870763221, 3624381080, 310598401, 607225278, 1426881987,
   1925078388, 2162078206, 2614888103, 3248222580, 3835390401, 4022224774,
   264347078, 604807628, 770255983, 1249150122, 1555081692, 1996064986,
   2554220882, 2821834349, 2952996808, 3210313671, 3336571891, 3584528711,
   113926993, 338241895, 666307205, 773529912, 1294757372, 1396182291,
   1695183700, 1986661051, 2177026350, 2456956037, 2730485921, 2820302411,
   3259730800, 3345764771, 3516065817, 3600352804, 4094571909, 275423344,
   430227734, 506948616, 659060556, 883997877, 958139571, 1322822218,
   1537002063, 1747873779, 1955562222, 2024104815, 2227730452, 2361852424,
   2428436474, 2756734187, 3204031479, 3329325298]

/-- SHA-256 `Ch`. -/
def shaCh (x y z : Nat) : Nat := x &&& y ^^^ (not32 x &&& z)

/-- SHA-256 `Maj`. -/
def shaMaj (x y z : Nat) : Nat := x &&& y ^^^ (x &&& z) ^^^ (y &&& z)

/-- SHA-256 `Σ₀`. -/
def bsig0 (x : Nat) : Nat := rotr32 x 2 ^^^ rotr32 x 13 ^^^ rotr32 x 22

/-- SHA-256 `Σ₁`. -/
def bsig1 (x : Nat) : Nat := rotr32 x 6 ^^^ rotr32 x 11 ^^^ rotr32 x 25

/-- SHA-256 `σ₀`. -/
def ssig0 (x : Nat) : Nat := rotr32 x 7 ^^^ rotr32 x 18 ^^^ x % pow32 / 8

/-- SHA-256 `σ₁`. -/
def ssig1 (x : Nat) : Nat := rotr32 x 17 ^^^ rotr32 x 19 ^^^ x % pow32 / 1024

/-- SHA-256 / MD5 padding length: zeros so that `len + 1 + zeros ≡ 56 (mod 64)`. -/
def padZeros (len : Nat) : Nat := (119 - len % 64) % 64

/-- SHA-256 padding: `0x80`, zeros, then the big-endian 64-bit bit length. -/
def sha256Pad (msg : List Nat) : List Nat :=
  msg ++ 128 :: List.replicate (padZeros msg.length) 0 ++ bytesBE8 (8 * msg.length)

/-- The 16 big-endian message words of one 64-byte block. -/
def words16BE (block : List Nat) : List Nat :=
  (List.range 16).map fun i =>
    block.getD (4 * i) 0 * 16777216 + block.getD (4 * i + 1) 0 * 65536 +
      block.getD (4 * i + 2) 0 * 256 + block.getD (4 * i + 3) 0

/-- Extend 16 message words to the 64-word SHA-256 schedule. -/
def sha256Schedule (w16 : List Nat) : List Nat :=
  (List.range 48).foldl
    (fun ws t =>
      ws ++ [(ssig1 (ws.getD (t + 14) 0) + ws.getD (t + 9) 0 +
        ssig0 (ws.getD (t + 1) 0) + ws.getD t 0) % pow32])
    w16

/-- One SHA-256 round. -/
def sha256Round (w : List Nat) (s : Sha256State) (t : Nat) : Sha256State :=
  let t1 := (s.h + bsig1 s.e + shaCh s.e s.f s.g + sha256K.getD t 0 + w.getD t 0) % pow32
  let t2 := (bsig0 s.a + shaMaj s.a s.b s.c) % pow32
  ⟨(t1 + t2) % pow32, s.a, s.b, s.c, (s.d + t1) % pow32, s.e, s.f, s.g⟩

/-- SHA-256 compression of one 64-byte block. -/
def sha256Compress (st : Sha256State) (block : List Nat) : Sha256State :=
  let w := sha256Schedule (words16BE block)
  let s := (List.range 64).foldl (sha256Round w) st
  ⟨(st.a + s.a) % pow32, (st.b + s.b) % pow32, (st.c + s.c) % pow32,
   (st.d + s.d) % pow32, (st.e + s.e) % pow32, (st.f + s.f) % pow32,
   (st.g + s.g) % pow32, (st.h + s.h) % pow32⟩

/-- SHA-256 digest of a byte list, as 32 byte values. -/
def sha256Bytes (msg : List Nat) : List Nat :=
  let s := (chunks64 (sha256Pad msg)).foldl sha256Compress sha256IV
  bytesBE4 s.a ++ bytesBE4 s.b ++ bytesBE4 s.c ++ bytesBE4 s.d ++
    bytesBE4 s.e ++ bytesBE4 s.f ++ bytesBE4 s.g ++ bytesBE4 s.h

/-- `hashlib.sha256(·).hexdigest()`: 64 lowercase hex characters. -/
def sha256HexDigest (msg : List Nat) : List Char := hexOfBytes (sha256Bytes msg)

/-! ## MD5 (RFC 1321), the engine behind `hashlib.md5` used by
`_calculate_data_hash` -/

/-- The four-word MD5 working state. -/
structure Md5State where
  a : Nat
  b : Nat
  c : Nat
  d : Nat
deriving DecidableEq, Repr

/-- MD5 initial state. -/
def md5IV : Md5State := ⟨0x67452301, 0xefcdab89, 0x98badcfe, 0x10325476⟩

/-- The 64 MD5 sine-table constants `⌊|sin(i+1)| · 2^32⌋`. -/
def md5K : List Nat :=
  [3614090360, 3905402710, 606105819, 3250441966, 4118548399, 1200080426,
   2821735955, 4249261313, 1770035416, 2336552879, 4294925233, 2304563134,
   1804603682, 4254626195, 2792965006, 1236535329, 4129170786, 3225465664,
   643717713, 3921069994, 3593408605, 38016083, 3634488961, 3889429448,
   568446438, 3275163606, 4107603335, 1163531501, 2850285829, 4243563512,
   1735328473, 2368359562, 4294588738, 2272392833, 1839030562, 4259657740,
   2763975236, 1272893353, 4139469664, 3200236656, 681279174, 3936430074,
   3572445317, 76029189, 3654602809, 3873151461, 530742520, 3299628645,
   4096336452, 1126891415, 2878612391, 4237533241, 1700485571, 2399980690,
   4293915773, 2240044497, 1873313359, 4264355552, 2734768916, 1309151649,
   4149444226, 3174756917, 718787259, 3951481745]

/-- The per-round MD5 left-rotation amounts. -/
def md5S : List Nat :=
  [7, 12, 17, 22, 7, 12, 17, 22, 7, 12, 17, 22, 7, 12, 17, 22,
   5, 9, 14, 20, 5, 9, 14, 20, 5, 9, 14, 20, 5, 9, 14, 20,
   4, 11, 16, 23, 4, 11, 16, 23, 4, 11, 16, 23, 4, 11, 16, 23,
   6, 10, 15, 21, 6, 10, 15, 21, 6, 10, 15, 21, 6, 10, 15, 21]

/-- MD5 round function `F`/`G`/`H`/`I`, selected by the round quarter. -/
def md5F (i b c d : Nat) : Nat :=
  if i < 16 then b &&& c ||| (not32 b &&& d)
  else if i < 32 then d &&& b ||| (not32 d &&& c)
  else if i < 48 then b ^^^ c ^^^ d
  else c ^^^ (b ||| not32 d)

/-- MD5 message-word index for round `i`. -/
def md5G (i : Nat) : Nat :=
  if i < 16 then i
  else if i < 32 then (5 * i + 1) % 16
  else if i < 48 then (3 * i + 5) % 16
  else 7 * i % 16

/-- MD5 padding: `0x80`, zeros, then the little-endian 64-bit bit length. -/
def md5Pad (msg : List Nat) : List Nat :=
  msg ++ 128 :: List.replicate (padZeros msg.length) 0 ++ bytesLE8 (8 * msg.length)

/-- The 16 little-endian message words of one 64-byte block. -/
def words16LE (block : List Nat) : List Nat :=
  (List.range 16).map fun i =>
    block.getD (4 * i) 0 + block.getD (4 * i + 1) 0 * 256 +
      block.getD (4 * i + 2) 0 * 65536 + block.getD (4 * i + 3) 0 * 16777216

/-- One MD5 round. -/
def md5Round (m : List Nat) (s : Md5State) (i : Nat) : Md5State :=
  let f := (md5F i s.b s.c s.d + s.a + md5K.getD i 0 + m.getD (md5G i) 0) % pow32
  ⟨s.d, (s.b + rotl32 f (md5S.getD i 0)) % pow32, s.b, s.c⟩

/-- MD5 compression of one 64-byte block. -/
def md5Compress (st : Md5State) (block : List Nat) : Md5State :=
  let m := words16LE block
  let s := (List.range 64).foldl (md5Round m) st
  ⟨(st.a + s.a) % pow32, (st.b + s.b) % pow32, (st.c + s.c) % pow32,
   (st.d + s.d) % pow32⟩

/-- MD5 digest of a byte list, as 16 byte values (little-endian state dump). -/
def md5Bytes (msg : List Nat) : List Nat :=
  let s := (chunks64 (md5Pad msg)).foldl md5Compress md5IV
  bytesLE4 s.a ++ bytesLE4 s.b ++ bytesLE4 s.c ++ bytesLE4 s.d

/-- `hashlib.md5(·).hexdigest()`: 32 lowercase hex characters. -/
def md5HexDigest (msg : List Nat) : List Char := hexOfBytes (md5Bytes msg)

/-! ## `hash_project_name` (src/ccusage_importer.py:51 and
src/ccusage_import/config.py:30)

The global flag `HASH_PROJECT_NAMES` is threaded as an explicit argument
(its module-level default is `True`). -/

/-- `hash_project_name`: if hashing is disabled return the path unchanged,
otherwise the first 8 characters of the SHA-256 hex digest of the UTF-8
encoded path. -/
def hash_project_name (hashProjectNames : Bool) (projectPath : String) : String :=
  if !hashProjectNames then projectPath
  else ⟨(sha256HexDigest (utf8Encode projectPath)).take 8⟩

/-! ## JSON values and `json.dumps(·, sort_keys=True, default=str)`

`_calculate_data_hash` (src/ccusage_importer.py:2178) serialises the fetched
payload with `json.dumps(all_data, sort_keys=True, default=str)` and hashes
it.  A parsed JSON payload is a finite tree; Python `dict`s never carry
duplicate keys, and their iteration order is insertion order, which is why
`sort_keys=True` is what makes the fingerprint representation-independent. -/

/-- A parsed JSON payload.  Object fields are kept in insertion order, as a
Python `dict` does. -/
inductive JValue where
  | null
  | bool (b : Bool)
  | int (n : Int)
  | str (s : String)
  | arr (xs : List JValue)
  | obj (fields : List (String × JValue))

/-- JSON escape of one character, `ensure_ascii` style: the standard short
escapes, `\u00XX` for remaining control characters, and `\uXXXX` (with
surrogate pairs beyond the BMP) for non-ASCII. -/
def jsonEscapeChar (c : Char) : List Char :=
  let n := c.toNat
  let uHex := fun (m : Nat) =>
    ['\\', 'u', hexChar (m / 4096 % 16), hexChar (m / 256 % 16),
     hexChar (m / 16 % 16), hexChar (m % 16)]
  if c = '"' then ['\\', '"']
  else if c = '\\' then ['\\', '\\']
  else if n = 10 then ['\\', 'n']
  else if n = 9 then ['\\', 't']
  else if n = 13 then ['\\', 'r']
  else if n = 8 then ['\\', 'b']
  else if n = 12 then ['\\', 'f']
  else if n < 32 then uHex n
  else if n < 127 then [c]
  else if n < 65536 then uHex n
  else uHex (55296 + (n - 65536) / 1024) ++ uHex (56320 + (n - 65536) % 1024)

/-- A JSON string literal, quotes included. -/
def jsonQuote (s : String) : List Char :=
  '"' :: (s.data.map jsonEscapeChar).flatten ++ ['"']

/-- Interleave `", "` between the serialised items, as the default
`json.dumps` item separator does. -/
def joinComma : List (List Char) → List Char
  | [] => []
  | [x] => x
  | x :: xs => x ++ ',' :: ' ' :: joinComma xs

/-- Sort key-tagged items by key (stable sort comparing keys only, which is
exactly what `sort_keys=True` induces; Python `sorted` on `str` is
lexicographic on code points, as `String` order is here). -/
def sortPairs {α : Type} (l : List (String × α)) : List (String × α) :=
  List.insertionSort (fun p q => p.1 ≤ q.1) l

/-- `json.dumps(·, sort_keys=True, default=str)` with the default
separators `", "` and `": "`.  Every object's fields are serialised in
sorted key order. -/
def dumpsJson : JValue → List Char
  | JValue.null => ['n', 'u', 'l', 'l']
  | JValue.bool b => if b then ['t', 'r', 'u', 'e'] else ['f', 'a', 'l', 's', 'e']
  | JValue.int n => (toString n).data
  | JValue.str s => jsonQuote s
  | JValue.arr xs => '[' :: joinComma (xs.attach.map fun x => dumpsJson x.1) ++ [']']
  | JValue.obj fs =>
      '{' ::
        joinComma ((sortPairs (fs.attach.map fun x =>
          (x.1.1, dumpsJson x.1.2))).map fun p => jsonQuote p.1 ++ ':' :: ' ' :: p.2)
        ++ ['}']
decreasing_by
  · have hx := List.sizeOf_lt_of_mem x.2
    simp only [JValue.arr.sizeOf_spec]
    omega
  · have hx := List.sizeOf_lt_of_mem x.2
    have : sizeOf x.1.2 < sizeOf x.1 := by
      obtain ⟨k, v⟩ := x.1
      simp only [Prod.mk.sizeOf_spec]
      omega
    simp only [JValue.obj.sizeOf_spec]
    omega

/-- `_calculate_data_hash` (src/ccusage_importer.py:2178, and
`calculate_data_hash` in src/ccusage_import/clickhouse_client.py:315):
serialise the payload deterministically and keep the first 12 characters of
the MD5 hex digest.  The `except` branch of the source returns `""`, but a
finite JSON tree always serialises, so the embedded function is total. -/
def calculate_data_hash (allData : JValue) : String :=
  ⟨(md5HexDigest (utf8Encode ⟨dumpsJson allData⟩)).take 12⟩

/-! ## Input records

The dictionaries handed to the upsert methods, with exactly the fields the
source reads.  Token counts are Python ints (`Int`); costs are `ℚ`. -/

/-- One entry of `modelBreakdowns`. -/
structure BreakdownItem where
  modelName : String
  inputTokens : Int
  outputTokens : Int
  cacheCreationTokens : Int
  cacheReadTokens : Int
  cost : ℚ
deriving DecidableEq

/-- One item of `daily_data` (also the per-date items of `projects_data`). -/
structure DailyItem where
  date : String
  inputTokens : Int
  outputTokens : Int
  cacheCreationTokens : Int
  cacheReadTokens : Int
  totalTokens : Int
  totalCost : ℚ
  modelsUsed : List String
  modelBreakdowns : List BreakdownItem
deriving DecidableEq

/-- One item of `monthly_data`. -/
structure MonthlyItem where
  month : String
  inputTokens : Int
  outputTokens : Int
  cacheCreationTokens : Int
  cacheReadTokens : Int
  totalTokens : Int
  totalCost : ℚ
  modelsUsed : List String
  modelBreakdowns : List BreakdownItem
deriving DecidableEq

/-- One item of `session_data`. -/
structure SessionItem where
  sessionId : String
  projectPath : String
  inputTokens : Int
  outputTokens : Int
  cacheCreationTokens : Int
  cacheReadTokens : Int
  totalTokens : Int
  totalCost : ℚ
  lastActivity : String
  modelsUsed : List String
  modelBreakdowns : List BreakdownItem
deriving DecidableEq

/-- A `burnRate`/`projection` field: absent, a bare number, or an object the
source projects one numeric field out of. -/
inductive JNum where
  | none
  | num (x : ℚ)
  | obj (fields : List (String × ℚ))
deriving DecidableEq

/-- One item of `blocks_data`. -/
structure BlockItem where
  id : String
  startTime : String
  endTime : String
  actualEndTime : Option String
  isActive : Bool
  isGap : Bool
  entries : Int
  tcInputTokens : Int
  tcOutputTokens : Int
  tcCacheCreationInputTokens : Int
  tcCacheReadInputTokens : Int
  totalTokens : Int
  costUSD : ℚ
  models : List String
  usageLimitResetTime : Option String
  burnRate : JNum
  projection : JNum
deriving DecidableEq

/-! ## Table rows and store state

Row structures mirror, field for field and in order, the row lists built by
`ccusage_importer.py`.  `_parse_date` / `_parse_datetime` normalise strings
into date objects; equality of the stored values coincides with equality of
the normalised strings, so they are embedded as string normalisers. -/

/-- `_parse_date` (src/ccusage_importer.py:538): an ISO `YYYY-MM-DD` string
and the date it denotes compare identically, so the embedding keeps the
string. -/
def parse_date (s : String) : String := s

/-- `_parse_datetime` (src/ccusage_importer.py:542): strips a trailing `Z`
and drops the timezone; embedded as that string normalisation. -/
def parse_datetime (s : String) : String :=
  if s.endsWith "Z" then s.dropRight 1 else s

/-- `_extract_burn_rate` (src/ccusage_importer.py:553): `None`, a bare
number, or `burn_rate_data.get("costPerHour")`. -/
def extract_burn_rate : JNum → Option ℚ
  | JNum.none => Option.none
  | JNum.num x => some x
  | JNum.obj fields => fields.lookup "costPerHour"

/-- `_extract_projection` (src/ccusage_importer.py:564): `None`, a bare
number, or `projection_data.get("totalCost")`. -/
def extract_projection : JNum → Option ℚ
  | JNum.none => Option.none
  | JNum.num x => some x
  | JNum.obj fields => fields.lookup "totalCost"

/-- A row of `ccusage_usage_daily`. -/
structure DailyRow where
  date : String
  machineName : String
  inputTokens : Int
  outputTokens : Int
  cacheCreationTokens : Int
  cacheReadTokens : Int
  totalTokens : Int
  totalCost : ℚ
  modelsCount : Nat
  createdAt : Nat
  updatedAt : Nat
  source : String
deriving DecidableEq

/-- A row of `ccusage_usage_monthly`. -/
structure MonthlyRow where
  month : String
  year : Int
  monthNum : Int
  machineName : String
  inputTokens : Int
  outputTokens : Int
  cacheCreationTokens : Int
  cacheReadTokens : Int
  totalTokens : Int
  totalCost : ℚ
  modelsCount : Nat
  createdAt : Nat
  updatedAt : Nat
  source : String
deriving DecidableEq

/-- A row of `ccusage_usage_sessions`. -/
structure SessionRow where
  sessionId : String
  projectPath : String
  machineName : String
  inputTokens : Int
  outputTokens : Int
  cacheCreationTokens : Int
  cacheReadTokens : Int
  totalTokens : Int
  totalCost : ℚ
  lastActivity : String
  modelsCount : Nat
  createdAt : Nat
  updatedAt : Nat
  source : String
deriving DecidableEq

/-- A row of `ccusage_usage_blocks`. -/
structure BlockRow where
  blockId : String
  machineName : String
  startTime : String
  endTime : String
  actualEndTime : Option String
  isActive : Nat
  isGap : Nat
  entries : Int
  inputTokens : Int
  outputTokens : Int
  cacheCreationTokens : Int
  cacheReadTokens : Int
  totalTokens : Int
  costUSD : ℚ
  modelsCount : Nat
  createdAt : Nat
  updatedAt : Nat
  usageLimitResetTime : Option String
  burnRate : Option ℚ
  projection : Option ℚ
  source : String
deriving DecidableEq

/-- A row of `ccusage_usage_projects_daily` (monolith column order:
date, project, machine). -/
structure ProjectDailyRow where
  date : String
  projectId : String
  machineName : String
  inputTokens : Int
  outputTokens : Int
  cacheCreationTokens : Int
  cacheReadTokens : Int
  totalTokens : Int
  totalCost : ℚ
  modelsCount : Nat
  createdAt : Nat
  updatedAt : Nat
  source : String
deriving DecidableEq

/-- A row of `ccusage_model_breakdowns`. -/
structure BreakdownRow where
  recordType : String
  recordKey : String
  machineName : String
  modelName : String
  inputTokens : Int
  outputTokens : Int
  cacheCreationTokens : Int
  cacheReadTokens : Int
  cost : ℚ
  createdAt : Nat
  source : String
deriving DecidableEq

/-- A row of `ccusage_models_used`. -/
structure ModelUsedRow where
  recordType : String
  recordKey : String
  machineName : String
  model : String
  createdAt : Nat
  source : String
deriving DecidableEq

/-- The observable ClickHouse state: one list of rows per table touched by
the upsert engine. -/
structure Store where
  usageDaily : List DailyRow
  usageMonthly : List MonthlyRow
  usageSessions : List SessionRow
  usageBlocks : List BlockRow
  usageProjectsDaily : List ProjectDailyRow
  modelBreakdowns : List BreakdownRow
  modelsUsed : List ModelUsedRow
deriving DecidableEq

/-- One store round trip issued by an upsert: a `client.command` DELETE
against a table, or a `client.insert` of a row batch. -/
inductive StoreCall where
  | command (table : String)
  | insert (table : String) (rowCount : Nat)
deriving DecidableEq

/-- Parameterised delete: keep the rows that do not satisfy the WHERE
clause. -/
def deleteWhere {α : Type} (p : α → Prop) [DecidablePred p] (rows : List α) : List α :=
  rows.filter fun r => !(decide (p r))

/-! ## The upsert engine (src/ccusage_importer.py:1107–1560)

Each function takes the machine name, the source tag and the wall clock
explicitly, and returns the new store together with the trace of issued
store calls, in program order. -/

/-- The main-table row built for one daily item
(src/ccusage_importer.py:1128–1143). -/
def dailyRowOf (machine source : String) (now : Nat) (item : DailyItem) : DailyRow :=
  { date := parse_date item.date
    machineName := machine
    inputTokens := item.inputTokens
    outputTokens := item.outputTokens
    cacheCreationTokens := item.cacheCreationTokens
    cacheReadTokens := item.cacheReadTokens
    totalTokens := item.totalTokens
    totalCost := item.totalCost
    modelsCount := item.modelsUsed.length
    createdAt := now
    updatedAt := now
    source := source }

/-- A `ccusage_model_breakdowns` row for one breakdown entry. -/
def breakdownRowOf (recordType recordKey machine source : String) (now : Nat)
    (b : BreakdownItem) : BreakdownRow :=
  { recordType := recordType
    recordKey := recordKey
    machineName := machine
    modelName := b.modelName
    inputTokens := b.inputTokens
    outputTokens := b.outputTokens
    cacheCreationTokens := b.cacheCreationTokens
    cacheReadTokens := b.cacheReadTokens
    cost := b.cost
    createdAt := now
    source := source }

/-- A `ccusage_models_used` row for one model of `modelsUsed`. -/
def modelUsedRowOf (recordType recordKey machine source : String) (now : Nat)
    (model : String) : ModelUsedRow :=
  { recordType := recordType
    recordKey := recordKey
    machineName := machine
    model := model
    createdAt := now
    source := source }

/-- `upsert_daily_data` (src/ccusage_importer.py:1107).  Delete the touched
dates for this machine and source, insert the new rows, then replace the
matching model-breakdown rows (the source's breakdown DELETE carries no
machine filter) and models-used rows. -/
def upsert_daily_data (machine source : String) (now : Nat)
    (dailyData : List DailyItem) (st : Store) : Store × List StoreCall :=
  if dailyData.isEmpty then (st, [])
  else
    let dates := dailyData.map (·.date)
    let main1 := deleteWhere
      (fun r : DailyRow => r.date ∈ dates ∧ r.machineName = machine ∧ r.source = source)
      st.usageDaily
    let rows := dailyData.map (dailyRowOf machine source now)
    let bRows := dailyData.flatMap fun item =>
      item.modelBreakdowns.map (breakdownRowOf "daily" item.date machine source now)
    let uRows := dailyData.flatMap fun item =>
      item.modelsUsed.map (modelUsedRowOf "daily" item.date machine source now)
    let mainRes : List DailyRow × List StoreCall :=
      if rows.isEmpty then (main1, [])
      else (main1 ++ rows, [StoreCall.insert "ccusage_usage_daily" rows.length])
    let bRes : List BreakdownRow × List StoreCall :=
      if bRows.isEmpty then (st.modelBreakdowns, [])
      else
        (deleteWhere
          (fun r : BreakdownRow =>
            r.recordType = "daily" ∧ r.recordKey ∈ dates ∧ r.source = source)
          st.modelBreakdowns ++ bRows,
         [StoreCall.command "ccusage_model_breakdowns",
          StoreCall.insert "ccusage_model_breakdowns" bRows.length])
    let uRes : List ModelUsedRow × List StoreCall :=
      if uRows.isEmpty then (st.modelsUsed, [])
      else
        (deleteWhere
          (fun r : ModelUsedRow =>
            r.recordType = "daily" ∧ r.recordKey ∈ dates ∧
              r.machineName = machine ∧ r.source = source)
          st.modelsUsed ++ uRows,
         [StoreCall.command "ccusage_models_used",
          StoreCall.insert "ccusage_models_used" uRows.length])
    ({ st with usageDaily := mainRes.1, modelBreakdowns := bRes.1, modelsUsed := uRes.1 },
     StoreCall.command "ccusage_usage_daily" :: mainRes.2 ++ bRes.2 ++ uRes.2)

/-- The main-table row built for one monthly item
(src/ccusage_importer.py:1219–1236); `year`/`monthNum` come from splitting
`item["month"]` on `-`. -/
def monthlyRowOf (machine source : String) (now : Nat) (item : MonthlyItem) : MonthlyRow :=
  { month := item.month
    year := ((item.month.splitOn "-").getD 0 "").toInt?.getD 0
    monthNum := ((item.month.splitOn "-").getD 1 "").toInt?.getD 0
    machineName := machine
    inputTokens := item.inputTokens
    outputTokens := item.outputTokens
    cacheCreationTokens := item.cacheCreationTokens
    cacheReadTokens := item.cacheReadTokens
    totalTokens := item.totalTokens
    totalCost := item.totalCost
    modelsCount := item.modelsUsed.length
    createdAt := now
    updatedAt := now
    source := source }

/-- `upsert_monthly_data` (src/ccusage_importer.py:1196); same replace-by-key
algorithm keyed by month. -/
def upsert_monthly_data (machine source : String) (now : Nat)
    (monthlyData : List MonthlyItem) (st : Store) : Store × List StoreCall :=
  if monthlyData.isEmpty then (st, [])
  else
    let months := monthlyData.map (·.month)
    let main1 := deleteWhere
      (fun r : MonthlyRow => r.month ∈ months ∧ r.machineName = machine ∧ r.source = source)
      st.usageMonthly
    let rows := monthlyData.map (monthlyRowOf machine source now)
    let bRows := monthlyData.flatMap fun item =>
      item.modelBreakdowns.map (breakdownRowOf "monthly" item.month machine source now)
    let uRows := monthlyData.flatMap fun item =>
      item.modelsUsed.map (modelUsedRowOf "monthly" item.month machine source now)
    let mainRes : List MonthlyRow × List StoreCall :=
      if rows.isEmpty then (main1, [])
      else (main1 ++ rows, [StoreCall.insert "ccusage_usage_monthly" rows.length])
    let bRes : List BreakdownRow × List StoreCall :=
      if bRows.isEmpty then (st.modelBreakdowns, [])
      else
        (deleteWhere
          (fun r : BreakdownRow =>
            r.recordType = "monthly" ∧ r.recordKey ∈ months ∧ r.source = source)
          st.modelBreakdowns ++ bRows,
         [StoreCall.command "ccusage_model_breakdowns",
          StoreCall.insert "ccusage_model_breakdowns" bRows.length])
    let uRes : List ModelUsedRow × List StoreCall :=
      if uRows.isEmpty then (st.modelsUsed, [])
      else
        (deleteWhere
          (fun r : ModelUsedRow =>
            r.recordType = "monthly" ∧ r.recordKey ∈ months ∧
              r.machineName = machine ∧ r.source = source)
          st.modelsUsed ++ uRows,
         [StoreCall.command "ccusage_models_used",
          StoreCall.insert "ccusage_models_used" uRows.length])
    ({ st with usageMonthly := mainRes.1, modelBreakdowns := bRes.1, modelsUsed := uRes.1 },
     StoreCall.command "ccusage_usage_monthly" :: mainRes.2 ++ bRes.2 ++ uRes.2)

/-- The main-table row built for one session item
(src/ccusage_importer.py:1315–1332); session id and project path are
pseudonymised first. -/
def sessionRowOf (hashNames : Bool) (machine source : String) (now : Nat)
    (item : SessionItem) : SessionRow :=
  { sessionId := hash_project_name hashNames item.sessionId
    projectPath := hash_project_name hashNames item.projectPath
    machineName := machine
    inputTokens := item.inputTokens
    outputTokens := item.outputTokens
    cacheCreationTokens := item.cacheCreationTokens
    cacheReadTokens := item.cacheReadTokens
    totalTokens := item.totalTokens
    totalCost := item.totalCost
    lastActivity := parse_date item.lastActivity
    modelsCount := item.modelsUsed.length
    createdAt := now
    updatedAt := now
    source := source }

/-- `upsert_session_data` (src/ccusage_importer.py:1284); keys are the
pseudonymised session ids. -/
def upsert_session_data (hashNames : Bool) (machine source : String) (now : Nat)
    (sessionData : List SessionItem) (st : Store) : Store × List StoreCall :=
  if sessionData.isEmpty then (st, [])
  else
    let sessionIds := sessionData.map fun item => hash_project_name hashNames item.sessionId
    let main1 := deleteWhere
      (fun r : SessionRow =>
        r.sessionId ∈ sessionIds ∧ r.machineName = machine ∧ r.source = source)
      st.usageSessions
    let rows := sessionData.map (sessionRowOf hashNames machine source now)
    let bRows := sessionData.flatMap fun item =>
      item.modelBreakdowns.map
        (breakdownRowOf "session" (hash_project_name hashNames item.sessionId)
          machine source now)
    let uRows := sessionData.flatMap fun item =>
      item.modelsUsed.map
        (modelUsedRowOf "session" (hash_project_name hashNames item.sessionId)
          machine source now)
    let mainRes : List SessionRow × List StoreCall :=
      if rows.isEmpty then (main1, [])
      else (main1 ++ rows, [StoreCall.insert "ccusage_usage_sessions" rows.length])
    let bRes : List BreakdownRow × List StoreCall :=
      if bRows.isEmpty then (st.modelBreakdowns, [])
      else
        (deleteWhere
          (fun r : BreakdownRow =>
            r.recordType = "session" ∧ r.recordKey ∈ sessionIds ∧ r.source = source)
          st.modelBreakdowns ++ bRows,
         [StoreCall.command "ccusage_model_breakdowns",
          StoreCall.insert "ccusage_model_breakdowns" bRows.length])
    let uRes : List ModelUsedRow × List StoreCall :=
      if uRows.isEmpty then (st.modelsUsed, [])
      else
        (deleteWhere
          (fun r : ModelUsedRow =>
            r.recordType = "session" ∧ r.recordKey ∈ sessionIds ∧
              r.machineName = machine ∧ r.source = source)
          st.modelsUsed ++ uRows,
         [StoreCall.command "ccusage_models_used",
          StoreCall.insert "ccusage_models_used" uRows.length])
    ({ st with usageSessions := mainRes.1, modelBreakdowns := bRes.1, modelsUsed := uRes.1 },
     StoreCall.command "ccusage_usage_sessions" :: mainRes.2 ++ bRes.2 ++ uRes.2)

/-- The main-table row built for one block item
(src/ccusage_importer.py:1400–1428). -/
def blockRowOf (machine source : String) (now : Nat) (item : BlockItem) : BlockRow :=
  { blockId := item.id
    machineName := machine
    startTime := parse_datetime item.startTime
    endTime := parse_datetime item.endTime
    actualEndTime := item.actualEndTime.map parse_datetime
    isActive := if item.isActive then 1 else 0
    isGap := if item.isGap then 1 else 0
    entries := item.entries
    inputTokens := item.tcInputTokens
    outputTokens := item.tcOutputTokens
    cacheCreationTokens := item.tcCacheCreationInputTokens
    cacheReadTokens := item.tcCacheReadInputTokens
    totalTokens := item.totalTokens
    costUSD := item.costUSD
    modelsCount := item.models.length
    createdAt := now
    updatedAt := now
    usageLimitResetTime := item.usageLimitResetTime.map parse_datetime
    burnRate := extract_burn_rate item.burnRate
    projection := extract_projection item.projection
    source := source }

/-- `upsert_blocks_data` (src/ccusage_importer.py:1380): the reduced variant
with no breakdown table, keyed by block id; `"<synthetic>"` model markers
are skipped when building models-used rows. -/
def upsert_blocks_data (machine source : String) (now : Nat)
    (blocksData : List BlockItem) (st : Store) : Store × List StoreCall :=
  if blocksData.isEmpty then (st, [])
  else
    let blockIds := blocksData.map (·.id)
    let main1 := deleteWhere
      (fun r : BlockRow =>
        r.blockId ∈ blockIds ∧ r.machineName = machine ∧ r.source = source)
      st.usageBlocks
    let rows := blocksData.map (blockRowOf machine source now)
    let uRows := blocksData.flatMap fun item =>
      (item.models.filter fun model => model ≠ "<synthetic>").map
        (modelUsedRowOf "block" item.id machine source now)
    let mainRes : List BlockRow × List StoreCall :=
      if rows.isEmpty then (main1, [])
      else (main1 ++ rows, [StoreCall.insert "ccusage_usage_blocks" rows.length])
    let uRes : List ModelUsedRow × List StoreCall :=
      if uRows.isEmpty then (st.modelsUsed, [])
      else
        (deleteWhere
          (fun r : ModelUsedRow =>
            r.recordType = "block" ∧ r.recordKey ∈ blockIds ∧
              r.machineName = machine ∧ r.source = source)
          st.modelsUsed ++ uRows,
         [StoreCall.command "ccusage_models_used",
          StoreCall.insert "ccusage_models_used" uRows.length])
    ({ st with usageBlocks := mainRes.1, modelsUsed := uRes.1 },
     StoreCall.command "ccusage_usage_blocks" :: mainRes.2 ++ uRes.2)

/-- The main-table row built for one project's daily item
(src/ccusage_importer.py:1470–1486). -/
def projectDailyRowOf (machine source projectId : String) (now : Nat)
    (item : DailyItem) : ProjectDailyRow :=
  { date := parse_date item.date
    projectId := projectId
    machineName := machine
    inputTokens := item.inputTokens
    outputTokens := item.outputTokens
    cacheCreationTokens := item.cacheCreationTokens
    cacheReadTokens := item.cacheReadTokens
    totalTokens := item.totalTokens
    totalCost := item.totalCost
    modelsCount := item.modelsUsed.length
    createdAt := now
    updatedAt := now
    source := source }

/-- The `record_key` of a project-daily derived row:
`f"{item['date']}_{project_id}"`. -/
def projectRecordKey (date projectId : String) : String := date ++ "_" ++ projectId

/-- `upsert_projects_daily_data` (src/ccusage_importer.py:1451): the
main-table DELETE is by the set of touched dates (machine and source), with
no project filter; derived rows are keyed by `date_project`. -/
def upsert_projects_daily_data (machine source : String) (now : Nat)
    (projectsData : List (String × List DailyItem)) (st : Store) :
    Store × List StoreCall :=
  if projectsData.isEmpty then (st, [])
  else
    let datesToDelete := projectsData.flatMap fun p => p.2.map (·.date)
    let recordKeys := projectsData.flatMap fun p =>
      p.2.map fun item => projectRecordKey item.date p.1
    let rows := projectsData.flatMap fun p =>
      p.2.map (projectDailyRowOf machine source p.1 now)
    let bRows := projectsData.flatMap fun p =>
      p.2.flatMap fun item =>
        item.modelBreakdowns.map
          (breakdownRowOf "project_daily" (projectRecordKey item.date p.1)
            machine source now)
    let uRows := projectsData.flatMap fun p =>
      p.2.flatMap fun item =>
        item.modelsUsed.map
          (modelUsedRowOf "project_daily" (projectRecordKey item.date p.1)
            machine source now)
    let mainDel : List ProjectDailyRow × List StoreCall :=
      if datesToDelete.isEmpty then (st.usageProjectsDaily, [])
      else
        (deleteWhere
          (fun r : ProjectDailyRow =>
            r.date ∈ datesToDelete ∧ r.machineName = machine ∧ r.source = source)
          st.usageProjectsDaily,
         [StoreCall.command "ccusage_usage_projects_daily"])
    let mainRes : List ProjectDailyRow × List StoreCall :=
      if rows.isEmpty then (mainDel.1, [])
      else (mainDel.1 ++ rows, [StoreCall.insert "ccusage_usage_projects_daily" rows.length])
    let bRes : List BreakdownRow × List StoreCall :=
      if bRows.isEmpty then (st.modelBreakdowns, [])
      else
        (deleteWhere
          (fun r : BreakdownRow =>
            r.recordType = "project_daily" ∧ r.recordKey ∈ recordKeys ∧ r.source = source)
          st.modelBreakdowns ++ bRows,
         [StoreCall.command "ccusage_model_breakdowns",
          StoreCall.insert "ccusage_model_breakdowns" bRows.length])
    let uRes : List ModelUsedRow × List StoreCall :=
      if uRows.isEmpty then (st.modelsUsed, [])
      else
        (deleteWhere
          (fun r : ModelUsedRow =>
            r.recordType = "project_daily" ∧ r.recordKey ∈ recordKeys ∧
              r.machineName = machine ∧ r.source = source)
          st.modelsUsed ++ uRows,
         [StoreCall.command "ccusage_models_used",
          StoreCall.insert "ccusage_models_used" uRows.length])
    ({ st with usageProjectsDaily := mainRes.1, modelBreakdowns := bRes.1, modelsUsed := uRes.1 },
     mainDel.2 ++ mainRes.2 ++ bRes.2 ++ uRes.2)

/-! ## The parallel fetch orchestrator (src/ccusage_importer.py:575 and 1058)

Concurrency is embedded by quantifying over the completion order of the
submitted probes and over an environment assigning each probe attempt its
outcome.  The thread pool (width 3) only schedules; the returned map is a
function of outcomes and completion order alone. -/

/-- The outcome of one attempt of one probe command: a parsed JSON payload,
or one of the failure modes the source distinguishes.  `raised` is any
exception other than the three caught inside `run_ccusage_command`; it
propagates to the orchestrator's `future.result()`. -/
inductive AttemptOutcome where
  | ok (payload : JValue)
  | timeout
  | calledProcessError
  | jsonDecodeError
  | raised

/-- Outcome of the second (last) attempt: timeout, non-zero exit and bad
JSON all degrade to `{}`; an unexpected exception propagates. -/
def lastAttemptResult : AttemptOutcome → Except Unit JValue
  | AttemptOutcome.ok p => Except.ok p
  | AttemptOutcome.timeout => Except.ok (JValue.obj [])
  | AttemptOutcome.calledProcessError => Except.ok (JValue.obj [])
  | AttemptOutcome.jsonDecodeError => Except.ok (JValue.obj [])
  | AttemptOutcome.raised => Except.error ()

/-- `run_ccusage_command` (src/ccusage_importer.py:1058): `max_retries = 2`.
A timeout or non-zero exit on the first attempt retries once; a JSON decode
error returns `{}` immediately; success returns the parsed payload; any
other exception escapes the function. -/
def run_ccusage_command (env : String → Nat → AttemptOutcome) (command : String) :
    Except Unit JValue :=
  match env command 0 with
  | AttemptOutcome.ok p => Except.ok p
  | AttemptOutcome.timeout => lastAttemptResult (env command 1)
  | AttemptOutcome.calledProcessError => lastAttemptResult (env command 1)
  | AttemptOutcome.jsonDecodeError => Except.ok (JValue.obj [])
  | AttemptOutcome.raised => Except.error ()

/-- The five submitted probes, `(key, ccusage subcommand)`. -/
def ccusageCommands : List (String × String) :=
  [("daily", "daily"), ("monthly", "monthly"), ("session", "session"),
   ("blocks", "blocks"), ("projects", "daily --instances")]

/-- What `results[key]` ends up as: the probe's payload, or `{}` when
collecting the future's result raised. -/
def probeResult (env : String → Nat → AttemptOutcome) (key : String) : JValue :=
  match run_ccusage_command env ((ccusageCommands.lookup key).getD "") with
  | Except.ok p => p
  | Except.error _ => JValue.obj []

/-- `fetch_ccusage_data_parallel` (src/ccusage_importer.py:575): collect the
probes in completion order (`order`, any permutation of the submitted keys)
into the keyed result map, absorbing every per-probe failure. -/
def fetch_ccusage_data_parallel (env : String → Nat → AttemptOutcome)
    (order : List String) : List (String × JValue) :=
  order.map fun key => (key, probeResult env key)

/-! ## Import history and the identical-import check
(src/ccusage_importer.py:2140–2210, src/ccusage_import/importer.py:689,
src/ccusage_import/clickhouse_client.py:275–344) -/

/-- A row of `ccusage_import_history`, most recent first in the embedded
history list. -/
structure ImportSnapshot where
  importTimestamp : Nat
  machineName : String
  importDurationSeconds : Nat
  statisticsJson : String
  recordsImported : Nat
  importStatus : String
  dataHash : String
deriving DecidableEq

/-- `is_identical_import`: the `data_hash` of the most recent snapshot for
this machine equals the fingerprint of the current payload. -/
def is_identical_import (machine : String) (history : List ImportSnapshot)
    (allData : JValue) : Bool :=
  match (history.filter fun s => s.machineName == machine).head? with
  | some s => s.dataHash == calculate_data_hash allData
  | none => false

/-- The outcome of one controller run: final store, the store calls issued
by the upsert/save phases, whether "no new data" was reported, and the run's
snapshot history afterwards. -/
structure RunResult where
  store : Store
  calls : List StoreCall
  reportedNoNewData : Bool
  history : List ImportSnapshot
deriving DecidableEq

/-- The typed reading of the modular controller's fetched payload: for each
kind, `some records` iff the probe's envelope key was present
(src/ccusage_import/importer.py:740–774 guards on
`"daily" in all_data["daily"]` and the like). -/
structure FetchedData where
  daily : Option (List DailyItem)
  monthly : Option (List MonthlyItem)
  sessions : Option (List SessionItem)
  blocks : Option (List BlockItem)
  projects : Option (List (String × List DailyItem))
deriving DecidableEq

/-- The snapshot appended by `save_import_statistics`.  The statistics blob
and record count are reporting detail outside the claims; the `data_hash`
column is the one the identity check reads back. -/
def savedSnapshot (machine : String) (now : Nat) (allData : JValue) : ImportSnapshot :=
  { importTimestamp := now
    machineName := machine
    importDurationSeconds := 0
    statisticsJson := ""
    recordsImported := 0
    importStatus := "completed"
    dataHash := calculate_data_hash allData }

/-- `import_all_data` of the modular importer
(src/ccusage_import/importer.py:689): fetch, check the identical-import
fingerprint and — on a match — report "no new data" and return before any
upsert; otherwise run the five upserts for the present kinds and append a
history snapshot carrying the payload fingerprint.  The modular upserts
omit the `source` column; their delete/insert logic is otherwise that of the
embedded upserts, applied here with the default source tag. -/
def import_all_data_modular (hashNames : Bool) (machine : String) (now : Nat)
    (allData : JValue) (data : FetchedData) (history : List ImportSnapshot)
    (st : Store) : RunResult :=
  if is_identical_import machine history allData then
    { store := st, calls := [], reportedNoNewData := true, history := history }
  else
    let r1 := match data.daily with
      | some l => upsert_daily_data machine "ccusage" now l st
      | none => (st, [])
    let r2 := match data.monthly with
      | some l => upsert_monthly_data machine "ccusage" now l r1.1
      | none => (r1.1, [])
    let r3 := match data.sessions with
      | some l => upsert_session_data hashNames machine "ccusage" now l r2.1
      | none => (r2.1, [])
    let r4 := match data.blocks with
      | some l => upsert_blocks_data machine "ccusage" now l r3.1
      | none => (r3.1, [])
    let r5 := match data.projects with
      | some l => upsert_projects_daily_data machine "ccusage" now l r4.1
      | none => (r4.1, [])
    { store := r5.1
      calls := r1.2 ++ r2.2 ++ r3.2 ++ r4.2 ++ r5.2 ++
        [StoreCall.command "ccusage_import_history"]
      reportedNoNewData := false
      history := savedSnapshot machine now allData :: history }

/-- The typed reading of the monolith controller's per-source data
(src/ccusage_importer.py:2517–2528): the five ccusage kinds and the four
aggregated OpenCode kinds, an empty list standing for a falsy/absent
value. -/
structure MonolithData where
  ccDaily : List DailyItem
  ccMonthly : List MonthlyItem
  ccSessions : List SessionItem
  ccBlocks : List BlockItem
  ccProjects : List (String × List DailyItem)
  ocDaily : List DailyItem
  ocMonthly : List MonthlyItem
  ocSessions : List SessionItem
  ocProjects : List (String × List DailyItem)
deriving DecidableEq

/-- `import_all_data` of the monolith (src/ccusage_importer.py:2507–2659):
no identical-import gate — after the no-data check it always runs the upsert
phase for every non-empty kind of both sources, then appends a history
snapshot with the payload fingerprint.  (`_is_identical_import` exists at
src/ccusage_importer.py:2190 but is called nowhere.) -/
def import_all_data_monolith (hashNames : Bool) (machine : String)
    (skipCcusage skipOpencode : Bool) (now : Nat) (allData : JValue)
    (data : MonolithData) (history : List ImportSnapshot) (st : Store) : RunResult :=
  let hasCcusage := !data.ccDaily.isEmpty || !data.ccMonthly.isEmpty ||
    !data.ccSessions.isEmpty || !data.ccBlocks.isEmpty || !data.ccProjects.isEmpty
  let hasOpencode := !data.ocDaily.isEmpty || !data.ocMonthly.isEmpty ||
    !data.ocSessions.isEmpty
  if !hasCcusage && !hasOpencode then
    { store := st, calls := [], reportedNoNewData := false, history := history }
  else
    let cc : Store × List StoreCall :=
      if skipCcusage then (st, []) else
        let c1 := upsert_daily_data machine "ccusage" now data.ccDaily st
        let c2 := upsert_monthly_data machine "ccusage" now data.ccMonthly c1.1
        let c3 := upsert_session_data hashNames machine "ccusage" now data.ccSessions c2.1
        let c4 := upsert_blocks_data machine "ccusage" now data.ccBlocks c3.1
        let c5 := upsert_projects_daily_data machine "ccusage" now data.ccProjects c4.1
        (c5.1, c1.2 ++ c2.2 ++ c3.2 ++ c4.2 ++ c5.2)
    let oc : Store × List StoreCall :=
      if skipOpencode then (cc.1, []) else
        let o1 := upsert_daily_data machine "opencode" now data.ocDaily cc.1
        let o2 := upsert_monthly_data machine "opencode" now data.ocMonthly o1.1
        let o3 := upsert_session_data hashNames machine "opencode" now data.ocSessions o2.1
        let o4 := upsert_projects_daily_data machine "opencode" now data.ocProjects o3.1
        (o4.1, o1.2 ++ o2.2 ++ o3.2 ++ o4.2)
    { store := oc.1
      calls := cc.2 ++ oc.2 ++ [StoreCall.command "ccusage_import_history"]
      reportedNoNewData := false
      history := savedSnapshot machine now allData :: history }

/-! ## The raw-event aggregator (`_aggregate_opencode_messages`,
src/ccusage_importer.py:700–946)

A message dictionary is embedded with exactly the fields the aggregator
reads (each `dict.get` default folded in: missing token fields are 0, a
non-dict `tokens.cache` is 0/0, missing `modelID`/`sessionID` are
`"unknown"`, a missing `path.root` is `none`).  Python dicts keep insertion
order, so the grouping dictionaries are association lists updated in place
for a known key and appended for a new one. -/

/-- A raw OpenCode message. -/
structure OCMessage where
  role : String
  timeCreated : Int
  tokensInput : Int
  tokensOutput : Int
  tokensReasoning : Int
  cacheRead : Int
  cacheWrite : Int
  modelID : String
  cost : ℚ
  sessionID : String
  pathRoot : Option String
deriving DecidableEq

/-- Pad a number to two digits. -/
def pad2 (n : Nat) : String := if n < 10 then "0" ++ toString n else toString n

/-- Pad a number to four digits. -/
def pad4 (n : Nat) : String :=
  if n < 10 then "000" ++ toString n
  else if n < 100 then "00" ++ toString n
  else if n < 1000 then "0" ++ toString n
  else toString n

/-- Civil date (year, month, day) of a day count since 1970-01-01
(the standard days-to-civil algorithm, proleptic Gregorian). -/
def civilFromDays (z : Int) : Int × Nat × Nat :=
  let z := z + 719468
  let era := z.fdiv 146097
  let doe := (z - era * 146097).toNat
  let yoe := (doe - doe / 1460 + doe / 36524 - doe / 146096) / 365
  let doy := doe - (365 * yoe + yoe / 4 - yoe / 100)
  let mp := (5 * doy + 2) / 153
  let d := doy - (153 * mp + 2) / 5 + 1
  let m := if mp < 10 then mp + 3 else mp - 9
  let y := (if m ≤ 2 then yoe + 1 else yoe : Int) + era * 400
  (y, m, d)

/-- `datetime.fromtimestamp(created_ts / 1000).date().isoformat()`:
the calendar day of a millisecond timestamp, as `YYYY-MM-DD`.  (The source
uses the machine's local timezone; the embedding fixes UTC — the choice of
zone is an environment constant and does not affect any claim.) -/
def dateOfMs (ts : Int) : String :=
  let days := (ts.fdiv 1000).fdiv 86400
  let c := civilFromDays days
  pad4 c.1.toNat ++ "-" ++ pad2 c.2.1 ++ "-" ++ pad2 c.2.2

/-- `msg_date.strftime("%Y-%m")`: the calendar month, as `YYYY-MM`. -/
def monthOfMs (ts : Int) : String :=
  let days := (ts.fdiv 1000).fdiv 86400
  let c := civilFromDays days
  pad4 c.1.toNat ++ "-" ++ pad2 c.2.1

/-- `total_tokens` as the aggregator computes it
(src/ccusage_importer.py:750): input + output + cache-read + reasoning —
the cache-write count is not included, the reasoning count is. -/
def msgTotalTokens (m : OCMessage) : Int :=
  m.tokensInput + m.tokensOutput + m.cacheRead + m.tokensReasoning

/-- Update-or-append on an insertion-ordered association list: Python's
`if k not in d: d[k] = init` followed by in-place mutation of `d[k]`. -/
def updateAssoc {α : Type} (k : String) (init : α) (f : α → α) :
    List (String × α) → List (String × α)
  | [] => [(k, f init)]
  | p :: rest =>
      if p.1 = k then (p.1, f p.2) :: rest else p :: updateAssoc k init f rest

/-- In-place mutation of an existing key of an association list. -/
def modifyAssoc {α : Type} (k : String) (f : α → α) (l : List (String × α)) :
    List (String × α) :=
  l.map fun p => if p.1 = k then (p.1, f p.2) else p

/-- `set.add`: the embedded set is the first-seen-ordered deduplicated
list; only membership is observable because the output sorts it. -/
def setAdd (s : List String) (x : String) : List String :=
  if x ∈ s then s else s ++ [x]

/-- Insert a string into a sorted list (code-point order, as Python
`sorted` on `str`). -/
def insertStr (x : String) : List String → List String
  | [] => [x]
  | y :: ys => if x ≤ y then x :: y :: ys else y :: insertStr x ys

/-- `sorted(...)` on strings (insertion sort). -/
def sortStrings : List String → List String
  | [] => []
  | x :: xs => insertStr x (sortStrings xs)

/-- A fresh per-model breakdown entry (src/ccusage_importer.py:777–785). -/
def emptyBreakdown (modelId : String) : BreakdownItem :=
  { modelName := modelId, inputTokens := 0, outputTokens := 0,
    cacheCreationTokens := 0, cacheReadTokens := 0, cost := 0 }

/-- Accumulate one message into its model's breakdown entry
(src/ccusage_importer.py:787–791). -/
def addToBreakdown (m : OCMessage) (b : BreakdownItem) : BreakdownItem :=
  { b with
    inputTokens := b.inputTokens + m.tokensInput
    outputTokens := b.outputTokens + m.tokensOutput
    cacheReadTokens := b.cacheReadTokens + m.cacheRead
    cacheCreationTokens := b.cacheCreationTokens + m.cacheWrite
    cost := b.cost + m.cost }

/-- A per-key aggregation group (the zero-initialised grouping dict of
src/ccusage_importer.py:756–766). -/
structure OCGroup where
  inputTokens : Int
  outputTokens : Int
  cacheCreationTokens : Int
  cacheReadTokens : Int
  totalTokens : Int
  totalCost : ℚ
  modelsUsed : List String
  modelBreakdowns : List (String × BreakdownItem)
deriving DecidableEq

/-- The zero group. -/
def emptyOCGroup : OCGroup :=
  { inputTokens := 0, outputTokens := 0, cacheCreationTokens := 0,
    cacheReadTokens := 0, totalTokens := 0, totalCost := 0,
    modelsUsed := [], modelBreakdowns := [] }

/-- Accumulate one message into a daily group — sums, models-used set and
the per-model breakdown (src/ccusage_importer.py:768–791). -/
def addDailyGroup (m : OCMessage) (g : OCGroup) : OCGroup :=
  { g with
    inputTokens := g.inputTokens + m.tokensInput
    outputTokens := g.outputTokens + m.tokensOutput
    cacheReadTokens := g.cacheReadTokens + m.cacheRead
    cacheCreationTokens := g.cacheCreationTokens + m.cacheWrite
    totalTokens := g.totalTokens + msgTotalTokens m
    totalCost := g.totalCost + m.cost
    modelsUsed := setAdd g.modelsUsed m.modelID
    modelBreakdowns :=
      updateAssoc m.modelID (emptyBreakdown m.modelID) (addToBreakdown m)
        g.modelBreakdowns }

/-- Accumulate one message into a monthly or project-daily group: the same
sums and models-used set, but — as in the source — no breakdown update
(src/ccusage_importer.py:806–812 and 863–869). -/
def addGroupSums (m : OCMessage) (g : OCGroup) : OCGroup :=
  { g with
    inputTokens := g.inputTokens + m.tokensInput
    outputTokens := g.outputTokens + m.tokensOutput
    cacheReadTokens := g.cacheReadTokens + m.cacheRead
    cacheCreationTokens := g.cacheCreationTokens + m.cacheWrite
    totalTokens := g.totalTokens + msgTotalTokens m
    totalCost := g.totalCost + m.cost
    modelsUsed := setAdd g.modelsUsed m.modelID }

/-- A per-session aggregation group (src/ccusage_importer.py:816–830).  Its
breakdown dict is initialised but never written to by the loop. -/
structure OCSessionGroup where
  sessionId : String
  startTime : Int
  endTime : Int
  inputTokens : Int
  outputTokens : Int
  cacheCreationTokens : Int
  cacheReadTokens : Int
  totalTokens : Int
  totalCost : ℚ
  modelsUsed : List String
  modelBreakdowns : List (String × BreakdownItem)
  projectPath : Option String
deriving DecidableEq

/-- The fresh session group for a first-seen session id. -/
def initSessionGroup (m : OCMessage) : OCSessionGroup :=
  { sessionId := m.sessionID, startTime := m.timeCreated, endTime := m.timeCreated,
    inputTokens := 0, outputTokens := 0, cacheCreationTokens := 0,
    cacheReadTokens := 0, totalTokens := 0, totalCost := 0,
    modelsUsed := [], modelBreakdowns := [], projectPath := none }

/-- Accumulate one message into its session group
(src/ccusage_importer.py:832–839). -/
def addSessionGroup (m : OCMessage) (g : OCSessionGroup) : OCSessionGroup :=
  { g with
    endTime := max g.endTime m.timeCreated
    inputTokens := g.inputTokens + m.tokensInput
    outputTokens := g.outputTokens + m.tokensOutput
    cacheReadTokens := g.cacheReadTokens + m.cacheRead
    cacheCreationTokens := g.cacheCreationTokens + m.cacheWrite
    totalTokens := g.totalTokens + msgTotalTokens m
    totalCost := g.totalCost + m.cost
    modelsUsed := setAdd g.modelsUsed m.modelID }

/-- The aggregator's four grouping dictionaries. -/
structure AggState where
  dailyGroups : List (String × OCGroup)
  monthlyGroups : List (String × OCGroup)
  sessionGroups : List (String × OCSessionGroup)
  projectDailyGroups : List (String × List (String × OCGroup))
deriving DecidableEq

/-- The empty aggregation state. -/
def emptyAggState : AggState := ⟨[], [], [], []⟩

/-- One iteration of the aggregation loop over an assistant message
(src/ccusage_importer.py:724–869): skip undatable events, update the daily,
monthly and session groups, and — only while the session has no project
path yet and this message carries a truthy `path.root` — record the path
and fold this one message's counts into the project-daily group. -/
def aggStep (s : AggState) (m : OCMessage) : AggState :=
  if m.timeCreated = 0 then s
  else
    let dateStr := dateOfMs m.timeCreated
    let monthStr := monthOfMs m.timeCreated
    let s :=
      { s with
        dailyGroups := updateAssoc dateStr emptyOCGroup (addDailyGroup m) s.dailyGroups
        monthlyGroups := updateAssoc monthStr emptyOCGroup (addGroupSums m) s.monthlyGroups
        sessionGroups :=
          updateAssoc m.sessionID (initSessionGroup m) (addSessionGroup m) s.sessionGroups }
    match (s.sessionGroups.lookup m.sessionID).bind (·.projectPath) with
    | some _ => s
    | none =>
        match m.pathRoot with
        | some root =>
            if root = "" then s
            else
              { s with
                sessionGroups :=
                  modifyAssoc m.sessionID (fun g => { g with projectPath := some root })
                    s.sessionGroups
                projectDailyGroups :=
                  updateAssoc root []
                    (updateAssoc dateStr emptyOCGroup (addGroupSums m))
                    s.projectDailyGroups }
        | none => s

/-- The emitted daily (and project-daily) record for one grouped key
(src/ccusage_importer.py:872–884): models-used sorted, breakdowns in dict
insertion order. -/
def toDailyRecord (p : String × OCGroup) : DailyItem :=
  { date := p.1
    inputTokens := p.2.inputTokens
    outputTokens := p.2.outputTokens
    cacheCreationTokens := p.2.cacheCreationTokens
    cacheReadTokens := p.2.cacheReadTokens
    totalTokens := p.2.totalTokens
    totalCost := p.2.totalCost
    modelsUsed := sortStrings p.2.modelsUsed
    modelBreakdowns := p.2.modelBreakdowns.map (·.2) }

/-- The emitted monthly record for one grouped key
(src/ccusage_importer.py:886–898). -/
def toMonthlyRecord (p : String × OCGroup) : MonthlyItem :=
  { month := p.1
    inputTokens := p.2.inputTokens
    outputTokens := p.2.outputTokens
    cacheCreationTokens := p.2.cacheCreationTokens
    cacheReadTokens := p.2.cacheReadTokens
    totalTokens := p.2.totalTokens
    totalCost := p.2.totalCost
    modelsUsed := sortStrings p.2.modelsUsed
    modelBreakdowns := p.2.modelBreakdowns.map (·.2) }

/-- The emitted session record (src/ccusage_importer.py:900–918);
`lastActivity` is the day of the latest timestamp, and a falsy project path
becomes `"unknown"`. -/
def toSessionRecord (p : String × OCSessionGroup) : SessionItem :=
  { sessionId := p.2.sessionId
    projectPath :=
      match p.2.projectPath with
      | some r => if r = "" then "unknown" else r
      | none => "unknown"
    inputTokens := p.2.inputTokens
    outputTokens := p.2.outputTokens
    cacheCreationTokens := p.2.cacheCreationTokens
    cacheReadTokens := p.2.cacheReadTokens
    totalTokens := p.2.totalTokens
    totalCost := p.2.totalCost
    lastActivity := dateOfMs p.2.endTime
    modelsUsed := sortStrings p.2.modelsUsed
    modelBreakdowns := p.2.modelBreakdowns.map (·.2) }

/-- The aggregator's result: the four rollup collections handed to the
upsert engine. -/
structure AggResult where
  daily : List DailyItem
  monthly : List MonthlyItem
  session : List SessionItem
  projects : List (String × List DailyItem)
deriving DecidableEq

/-- `_aggregate_opencode_messages` (src/ccusage_importer.py:700): filter to
assistant messages, fold the grouping loop, and emit the records in group
insertion order; project paths are pseudonymised on the way out. -/
def aggregate_opencode_messages (hashNames : Bool) (messages : List OCMessage) :
    AggResult :=
  let assistant := messages.filter fun m => m.role == "assistant"
  if assistant.isEmpty then ⟨[], [], [], []⟩
  else
    let st := assistant.foldl aggStep emptyAggState
    { daily := st.dailyGroups.map toDailyRecord
      monthly := st.monthlyGroups.map toMonthlyRecord
      session := st.sessionGroups.map toSessionRecord
      projects := st.projectDailyGroups.map fun p =>
        (hash_project_name hashNames p.1, p.2.map toDailyRecord) }

/-! ## Named row batches

The row lists each upsert builds, named so that the behaviour of the engine
can be characterised equationally. -/

/-- The `ccusage_usage_daily` batch of one daily upsert. -/
def dailyMainRows (machine source : String) (now : Nat) (data : List DailyItem) :
    List DailyRow :=
  data.map (dailyRowOf machine source now)

/-- The `ccusage_model_breakdowns` batch of one daily upsert. -/
def dailyBreakdownRows (machine source : String) (now : Nat) (data : List DailyItem) :
    List BreakdownRow :=
  data.flatMap fun item =>
    item.modelBreakdowns.map (breakdownRowOf "daily" item.date machine source now)

/-- The `ccusage_models_used` batch of one daily upsert. -/
def dailyUsedRows (machine source : String) (now : Nat) (data : List DailyItem) :
    List ModelUsedRow :=
  data.flatMap fun item =>
    item.modelsUsed.map (modelUsedRowOf "daily" item.date machine source now)

/-- The `ccusage_usage_monthly` batch of one monthly upsert. -/
def monthlyMainRows (machine source : String) (now : Nat) (data : List MonthlyItem) :
    List MonthlyRow :=
  data.map (monthlyRowOf machine source now)

/-- The `ccusage_model_breakdowns` batch of one monthly upsert. -/
def monthlyBreakdownRows (machine source : String) (now : Nat)
    (data : List MonthlyItem) : List BreakdownRow :=
  data.flatMap fun item =>
    item.modelBreakdowns.map (breakdownRowOf "monthly" item.month machine source now)

/-- The `ccusage_models_used` batch of one monthly upsert. -/
def monthlyUsedRows (machine source : String) (now : Nat) (data : List MonthlyItem) :
    List ModelUsedRow :=
  data.flatMap fun item =>
    item.modelsUsed.map (modelUsedRowOf "monthly" item.month machine source now)

/-- The pseudonymised key set of one session upsert. -/
def sessionKeys (hashNames : Bool) (data : List SessionItem) : List String :=
  data.map fun item => hash_project_name hashNames item.sessionId

/-- The `ccusage_usage_sessions` batch of one session upsert. -/
def sessionMainRows (hashNames : Bool) (machine source : String) (now : Nat)
    (data : List SessionItem) : List SessionRow :=
  data.map (sessionRowOf hashNames machine source now)

/-- The `ccusage_model_breakdowns` batch of one session upsert. -/
def sessionBreakdownRows (hashNames : Bool) (machine source : String) (now : Nat)
    (data : List SessionItem) : List BreakdownRow :=
  data.flatMap fun item =>
    item.modelBreakdowns.map
      (breakdownRowOf "session" (hash_project_name hashNames item.sessionId)
        machine source now)

/-- The `ccusage_models_used` batch of one session upsert. -/
def sessionUsedRows (hashNames : Bool) (machine source : String) (now : Nat)
    (data : List SessionItem) : List ModelUsedRow :=
  data.flatMap fun item =>
    item.modelsUsed.map
      (modelUsedRowOf "session" (hash_project_name hashNames item.sessionId)
        machine source now)

/-- The `ccusage_usage_blocks` batch of one blocks upsert. -/
def blockMainRows (machine source : String) (now : Nat) (data : List BlockItem) :
    List BlockRow :=
  data.map (blockRowOf machine source now)

/-- The `ccusage_models_used` batch of one blocks upsert: one row per
non-synthetic entry of each block's model list. -/
def blockUsedRows (machine source : String) (now : Nat) (data : List BlockItem) :
    List ModelUsedRow :=
  data.flatMap fun item =>
    (item.models.filter fun model => model ≠ "<synthetic>").map
      (modelUsedRowOf "block" item.id machine source now)

/-- The dates touched by one projects upsert (membership view of the
source's `dates_to_delete` set). -/
def projectDates (data : List (String × List DailyItem)) : List String :=
  data.flatMap fun p => p.2.map (·.date)

/-- The `date_project` record keys touched by one projects upsert. -/
def projectRecordKeys (data : List (String × List DailyItem)) : List String :=
  data.flatMap fun p => p.2.map fun item => projectRecordKey item.date p.1

/-- The `ccusage_usage_projects_daily` batch of one projects upsert. -/
def projectMainRows (machine source : String) (now : Nat)
    (data : List (String × List DailyItem)) : List ProjectDailyRow :=
  data.flatMap fun p => p.2.map (projectDailyRowOf machine source p.1 now)

/-- The `ccusage_model_breakdowns` batch of one projects upsert. -/
def projectBreakdownRows (machine source : String) (now : Nat)
    (data : List (String × List DailyItem)) : List BreakdownRow :=
  data.flatMap fun p =>
    p.2.flatMap fun item =>
      item.modelBreakdowns.map
        (breakdownRowOf "project_daily" (projectRecordKey item.date p.1)
          machine source now)

/-- The `ccusage_models_used` batch of one projects upsert. -/
def projectUsedRows (machine source : String) (now : Nat)
    (data : List (String × List DailyItem)) : List ModelUsedRow :=
  data.flatMap fun p =>
    p.2.flatMap fun item =>
      item.modelsUsed.map
        (modelUsedRowOf "project_daily" (projectRecordKey item.date p.1)
          machine source now)

/-! ## Canonical views of the aggregator rollups

The aggregator emits record lists in dictionary insertion order, and each
record's breakdown list in per-model insertion order.  The order-free
observable of a rollup is the map from key to the record's sums, its set of
models and its per-model breakdown entry. -/

/-- The order-free content of one aggregated record. -/
structure GroupView where
  inputTokens : Int
  outputTokens : Int
  cacheCreationTokens : Int
  cacheReadTokens : Int
  totalTokens : Int
  totalCost : ℚ
  hasModel : String → Prop
  breakdown : String → Option BreakdownItem

/-- The view of a grouping-dictionary value. -/
def groupView (g : OCGroup) : GroupView :=
  { inputTokens := g.inputTokens
    outputTokens := g.outputTokens
    cacheCreationTokens := g.cacheCreationTokens
    cacheReadTokens := g.cacheReadTokens
    totalTokens := g.totalTokens
    totalCost := g.totalCost
    hasModel := fun x => x ∈ g.modelsUsed
    breakdown := fun x => (g.modelBreakdowns.find? fun q => q.1 == x).map (·.2) }

/-- The view of an emitted daily (or project-daily) record. -/
def dailyRecordView (r : DailyItem) : GroupView :=
  { inputTokens := r.inputTokens
    outputTokens := r.outputTokens
    cacheCreationTokens := r.cacheCreationTokens
    cacheReadTokens := r.cacheReadTokens
    totalTokens := r.totalTokens
    totalCost := r.totalCost
    hasModel := fun x => x ∈ r.modelsUsed
    breakdown := fun x => r.modelBreakdowns.find? fun b => b.modelName == x }

/-- The view of an emitted monthly record. -/
def monthlyRecordView (r : MonthlyItem) : GroupView :=
  { inputTokens := r.inputTokens
    outputTokens := r.outputTokens
    cacheCreationTokens := r.cacheCreationTokens
    cacheReadTokens := r.cacheReadTokens
    totalTokens := r.totalTokens
    totalCost := r.totalCost
    hasModel := fun x => x ∈ r.modelsUsed
    breakdown := fun x => r.modelBreakdowns.find? fun b => b.modelName == x }

/-- A daily rollup read as a key-indexed map. -/
def dailyRollupView (recs : List DailyItem) : String → Option GroupView :=
  fun d => (recs.find? fun r => r.date == d).map dailyRecordView

/-- A monthly rollup read as a key-indexed map. -/
def monthlyRollupView (recs : List MonthlyItem) : String → Option GroupView :=
  fun d => (recs.find? fun r => r.month == d).map monthlyRecordView

/-- The daily-grouping dictionary of an aggregation state, read as a
key-indexed map. -/
def stateDailyView (s : AggState) : String → Option GroupView :=
  fun d => (s.dailyGroups.find? fun p => p.1 == d).map fun p => groupView p.2

/-- The monthly-grouping dictionary of an aggregation state, read as a
key-indexed map. -/
def stateMonthlyView (s : AggState) : String → Option GroupView :=
  fun d => (s.monthlyGroups.find? fun p => p.1 == d).map fun p => groupView p.2

/-- Fold one message into a view, with the per-model breakdown update
(the abstract mirror of `addDailyGroup`). -/
def viewAdd (m : OCMessage) (v : GroupView) : GroupView :=
  { inputTokens := v.inputTokens + m.tokensInput
    outputTokens := v.outputTokens + m.tokensOutput
    cacheCreationTokens := v.cacheCreationTokens + m.cacheWrite
    cacheReadTokens := v.cacheReadTokens + m.cacheRead
    totalTokens := v.totalTokens + msgTotalTokens m
    totalCost := v.totalCost + m.cost
    hasModel := fun x => v.hasModel x ∨ x = m.modelID
    breakdown := fun x =>
      if x = m.modelID then
        some (addToBreakdown m ((v.breakdown x).getD (emptyBreakdown m.modelID)))
      else v.breakdown x }

/-- Fold one message into a view, without a breakdown update (the
abstract mirror of `addGroupSums`). -/
def viewAddSums (m : OCMessage) (v : GroupView) : GroupView :=
  { inputTokens := v.inputTokens + m.tokensInput
    outputTokens := v.outputTokens + m.tokensOutput
    cacheCreationTokens := v.cacheCreationTokens + m.cacheWrite
    cacheReadTokens := v.cacheReadTokens + m.cacheRead
    totalTokens := v.totalTokens + msgTotalTokens m
    totalCost := v.totalCost + m.cost
    hasModel := fun x => v.hasModel x ∨ x = m.modelID
    breakdown := v.breakdown }

/-- The abstract daily step: skip undatable messages, update the message's
calendar-day slot. -/
def absDailyStep (v : String → Option GroupView) (m : OCMessage) :
    String → Option GroupView :=
  if m.timeCreated = 0 then v
  else fun d =>
    if d = dateOfMs m.timeCreated then
      some (viewAdd m ((v d).getD (groupView emptyOCGroup)))
    else v d

/-- The abstract monthly step. -/
def absMonthlyStep (v : String → Option GroupView) (m : OCMessage) :
    String → Option GroupView :=
  if m.timeCreated = 0 then v
  else fun d =>
    if d = monthOfMs m.timeCreated then
      some (viewAddSums m ((v d).getD (groupView emptyOCGroup)))
    else v d

/-- Key-consistency of a breakdown dictionary: every entry's `modelName` is
its key (true of every dictionary the aggregator builds). -/
def GoodBreakdowns (bl : List (String × BreakdownItem)) : Prop :=
  ∀ q ∈ bl, q.2.modelName = q.1

/-- Key-consistency of a grouping dictionary. -/
def GoodGroups (gl : List (String × OCGroup)) : Prop :=
  ∀ p ∈ gl, GoodBreakdowns p.2.modelBreakdowns

/-! ## Concrete instances for witnesses and counterexamples -/

/-- The empty store. -/
def emptyStore : Store := ⟨[], [], [], [], [], [], []⟩

/-- A daily record akin to the spec's scenario row. -/
def exDailyItem : DailyItem :=
  { date := "2024-12-31", inputTokens := 1000, outputTokens := 500,
    cacheCreationTokens := 100, cacheReadTokens := 200, totalTokens := 1800,
    totalCost := 1/20, modelsUsed := ["m1", "m2"],
    modelBreakdowns :=
      [{ modelName := "m1", inputTokens := 600, outputTokens := 300,
         cacheCreationTokens := 60, cacheReadTokens := 120, cost := 3/100 },
       { modelName := "m2", inputTokens := 400, outputTokens := 200,
         cacheCreationTokens := 40, cacheReadTokens := 80, cost := 1/50 }] }

/-- A daily record whose only model marker is the synthetic sentinel. -/
def synDailyItem : DailyItem :=
  { date := "2025-01-01", inputTokens := 1, outputTokens := 1,
    cacheCreationTokens := 0, cacheReadTokens := 0, totalTokens := 2,
    totalCost := 0, modelsUsed := ["<synthetic>"], modelBreakdowns := [] }

/-- A monthly record. -/
def exMonthlyItem : MonthlyItem :=
  { month := "2024-12", inputTokens := 1000, outputTokens := 500,
    cacheCreationTokens := 100, cacheReadTokens := 200, totalTokens := 1800,
    totalCost := 1/20, modelsUsed := ["m1"],
    modelBreakdowns :=
      [{ modelName := "m1", inputTokens := 1000, outputTokens := 500,
         cacheCreationTokens := 100, cacheReadTokens := 200, cost := 1/20 }] }

/-- A session record. -/
def exSessionItem : SessionItem :=
  { sessionId := "sess-1", projectPath := "/home/u/proj",
    inputTokens := 10, outputTokens := 20, cacheCreationTokens := 0,
    cacheReadTokens := 0, totalTokens := 30, totalCost := 0,
    lastActivity := "2024-12-31", modelsUsed := ["m1"], modelBreakdowns := [] }

/-- A billing-block record. -/
def exBlockItem : BlockItem :=
  { id := "2024-12-31T00:00:00.000Z", startTime := "2024-12-31T00:00:00.000Z",
    endTime := "2024-12-31T05:00:00.000Z", actualEndTime := none,
    isActive := true, isGap := false, entries := 3,
    tcInputTokens := 10, tcOutputTokens := 20, tcCacheCreationInputTokens := 1,
    tcCacheReadInputTokens := 2, totalTokens := 33, costUSD := 0,
    models := ["m1", "<synthetic>"], usageLimitResetTime := none,
    burnRate := JNum.none, projection := JNum.none }

/-- A projects payload touching the date of `exDailyItem`. -/
def exProjectsData : List (String × List DailyItem) := [("proj-a", [exDailyItem])]

/-- A pre-existing project-daily row of a project absent from
`exProjectsData`, sharing the touched date. -/
def otherProjectRow : ProjectDailyRow :=
  { date := "2024-12-31", projectId := "proj-b", machineName := "m",
    inputTokens := 7, outputTokens := 7, cacheCreationTokens := 0,
    cacheReadTokens := 0, totalTokens := 14, totalCost := 0,
    modelsCount := 1, createdAt := 5, updatedAt := 5, source := "ccusage" }

/-- An OpenCode assistant message on 2024-01-01 (UTC), model `m1`,
session `s1`. -/
def msgA : OCMessage :=
  { role := "assistant", timeCreated := 1704067200000,
    tokensInput := 10, tokensOutput := 20, tokensReasoning := 0,
    cacheRead := 7, cacheWrite := 5, modelID := "m1", cost := 0,
    sessionID := "s1", pathRoot := none }

/-- An OpenCode assistant message on 2024-01-02 (UTC), model `m2`,
session `s2`. -/
def msgB : OCMessage :=
  { role := "assistant", timeCreated := 1704153600000,
    tokensInput := 1, tokensOutput := 2, tokensReasoning := 0,
    cacheRead := 3, cacheWrite := 4, modelID := "m2", cost := 0,
    sessionID := "s2", pathRoot := none }

/-- An environment in which every probe attempt times out. -/
def envAllFail : String → Nat → AttemptOutcome := fun _ _ => AttemptOutcome.timeout

/-- A completion order of the five probes. -/
def orderEx : List String := ["daily", "monthly", "session", "blocks", "projects"]

/-- A monolith-controller run whose fetched payload has the same
fingerprint as the most recent snapshot while daily data is nonetheless
present. -/
def c5MonolithRun : RunResult :=
  import_all_data_monolith true "m" false false 1 JValue.null
    { ccDaily := [exDailyItem], ccMonthly := [], ccSessions := [], ccBlocks := [],
      ccProjects := [], ocDaily := [], ocMonthly := [], ocSessions := [],
      ocProjects := [] }
    [savedSnapshot "m" 0 JValue.null] emptyStore

/-- The hexadecimal alphabet of `hexdigest`. -/
def hexDigitsList : List Char :=
  String.toList "0123456789abcdef"

/-! # Helper lemmas -/

theorem deleteWhere_append {α : Type} (p : α → Prop) [DecidablePred p] (l m : List α) :
    deleteWhere p (l ++ m) = deleteWhere p l ++ deleteWhere p m := by
  simp [deleteWhere, List.filter_append]

theorem deleteWhere_idem {α : Type} (p : α → Prop) [DecidablePred p] (l : List α) :
    deleteWhere p (deleteWhere p l) = deleteWhere p l := by
  simp [deleteWhere, List.filter_filter]

theorem deleteWhere_eq_nil {α : Type} (p : α → Prop) [DecidablePred p]
    (l : List α) (h : ∀ a ∈ l, p a) : deleteWhere p l = [] := by
  induction l with
  | nil => rfl
  | cons a t ih =>
    have ha : p a := h a (List.mem_cons_self a t)
    simp only [deleteWhere, List.filter_cons, decide_eq_true ha, Bool.not_true,
      Bool.false_eq_true, if_false]
    exact ih fun b hb => h b (List.mem_cons_of_mem a hb)

theorem deleteWhere_cancel {α : Type} (p : α → Prop) [DecidablePred p]
    (base rows : List α) (h : ∀ r ∈ rows, p r) :
    deleteWhere p (deleteWhere p base ++ rows) = deleteWhere p base := by
  rw [deleteWhere_append, deleteWhere_idem, deleteWhere_eq_nil p rows h, List.append_nil]

theorem length_flatMap_map {α β γ : Type} (l : List α) (f : α → List β) (g : α → β → γ) :
    (l.flatMap fun a => (f a).map (g a)).length = (l.flatMap f).length := by
  induction l with
  | nil => rfl
  | cons a t ih => simp [List.flatMap_cons, ih]

theorem isEmpty_eq_of_length_eq {α β : Type} {l : List α} {m : List β}
    (h : l.length = m.length) : l.isEmpty = m.isEmpty := by
  cases l <;> cases m <;> simp_all

/-! ## Characterisations of the five upserts on non-empty input -/

theorem upsert_daily_data_eq (machine source : String) (now : Nat)
    (data : List DailyItem) (st : Store) (h : data ≠ []) :
    (upsert_daily_data machine source now data st).1 =
      { st with
        usageDaily :=
          deleteWhere (fun r : DailyRow =>
              r.date ∈ data.map (·.date) ∧ r.machineName = machine ∧ r.source = source)
            st.usageDaily ++ dailyMainRows machine source now data
        modelBreakdowns :=
          if (dailyBreakdownRows machine source now data).isEmpty then st.modelBreakdowns
          else
            deleteWhere (fun r : BreakdownRow =>
                r.recordType = "daily" ∧ r.recordKey ∈ data.map (·.date) ∧
                  r.source = source)
              st.modelBreakdowns ++ dailyBreakdownRows machine source now data
        modelsUsed :=
          if (dailyUsedRows machine source now data).isEmpty then st.modelsUsed
          else
            deleteWhere (fun r : ModelUsedRow =>
                r.recordType = "daily" ∧ r.recordKey ∈ data.map (·.date) ∧
                  r.machineName = machine ∧ r.source = source)
              st.modelsUsed ++ dailyUsedRows machine source now data } := by
  have hne : data.isEmpty = false := by simpa [List.isEmpty_iff] using h
  have hrows : (data.map (dailyRowOf machine source now)).isEmpty = false := by
    simpa [List.isEmpty_iff] using h
  simp only [upsert_daily_data, hne, Bool.false_eq_true, if_false, hrows,
    dailyMainRows, dailyBreakdownRows, dailyUsedRows, apply_ite (Prod.fst)]

theorem upsert_monthly_data_eq (machine source : String) (now : Nat)
    (data : List MonthlyItem) (st : Store) (h : data ≠ []) :
    (upsert_monthly_data machine source now data st).1 =
      { st with
        usageMonthly :=
          deleteWhere (fun r : MonthlyRow =>
              r.month ∈ data.map (·.month) ∧ r.machineName = machine ∧ r.source = source)
            st.usageMonthly ++ monthlyMainRows machine source now data
        modelBreakdowns :=
          if (monthlyBreakdownRows machine source now data).isEmpty then st.modelBreakdowns
          else
            deleteWhere (fun r : BreakdownRow =>
                r.recordType = "monthly" ∧ r.recordKey ∈ data.map (·.month) ∧
                  r.source = source)
              st.modelBreakdowns ++ monthlyBreakdownRows machine source now data
        modelsUsed :=
          if (monthlyUsedRows machine source now data).isEmpty then st.modelsUsed
          else
            deleteWhere (fun r : ModelUsedRow =>
                r.recordType = "monthly" ∧ r.recordKey ∈ data.map (·.month) ∧
                  r.machineName = machine ∧ r.source = source)
              st.modelsUsed ++ monthlyUsedRows machine source now data } := by
  have hne : data.isEmpty = false := by simpa [List.isEmpty_iff] using h
  have hrows : (data.map (monthlyRowOf machine source now)).isEmpty = false := by
    simpa [List.isEmpty_iff] using h
  simp only [upsert_monthly_data, hne, Bool.false_eq_true, if_false, hrows,
    monthlyMainRows, monthlyBreakdownRows, monthlyUsedRows, apply_ite (Prod.fst)]

theorem upsert_session_data_eq (hashNames : Bool) (machine source : String) (now : Nat)
    (data : List SessionItem) (st : Store) (h : data ≠ []) :
    (upsert_session_data hashNames machine source now data st).1 =
      { st with
        usageSessions :=
          deleteWhere (fun r : SessionRow =>
              r.sessionId ∈ sessionKeys hashNames data ∧ r.machineName = machine ∧
                r.source = source)
            st.usageSessions ++ sessionMainRows hashNames machine source now data
        modelBreakdowns :=
          if (sessionBreakdownRows hashNames machine source now data).isEmpty then
            st.modelBreakdowns
          else
            deleteWhere (fun r : BreakdownRow =>
                r.recordType = "session" ∧ r.recordKey ∈ sessionKeys hashNames data ∧
                  r.source = source)
              st.modelBreakdowns ++ sessionBreakdownRows hashNames machine source now data
        modelsUsed :=
          if (sessionUsedRows hashNames machine source now data).isEmpty then st.modelsUsed
          else
            deleteWhere (fun r : ModelUsedRow =>
                r.recordType = "session" ∧ r.recordKey ∈ sessionKeys hashNames data ∧
                  r.machineName = machine ∧ r.source = source)
              st.modelsUsed ++ sessionUsedRows hashNames machine source now data } := by
  have hne : data.isEmpty = false := by simpa [List.isEmpty_iff] using h
  have hrows : (data.map (sessionRowOf hashNames machine source now)).isEmpty = false := by
    simpa [List.isEmpty_iff] using h
  simp only [upsert_session_data, hne, Bool.false_eq_true, if_false, hrows,
    sessionKeys, sessionMainRows, sessionBreakdownRows, sessionUsedRows, apply_ite (Prod.fst)]

theorem upsert_blocks_data_eq (machine source : String) (now : Nat)
    (data : List BlockItem) (st : Store) (h : data ≠ []) :
    (upsert_blocks_data machine source now data st).1 =
      { st with
        usageBlocks :=
          deleteWhere (fun r : BlockRow =>
              r.blockId ∈ data.map (·.id) ∧ r.machineName = machine ∧ r.source = source)
            st.usageBlocks ++ blockMainRows machine source now data
        modelsUsed :=
          if (blockUsedRows machine source now data).isEmpty then st.modelsUsed
          else
            deleteWhere (fun r : ModelUsedRow =>
                r.recordType = "block" ∧ r.recordKey ∈ data.map (·.id) ∧
                  r.machineName = machine ∧ r.source = source)
              st.modelsUsed ++ blockUsedRows machine source now data } := by
  have hne : data.isEmpty = false := by simpa [List.isEmpty_iff] using h
  have hrows : (data.map (blockRowOf machine source now)).isEmpty = false := by
    simpa [List.isEmpty_iff] using h
  simp only [upsert_blocks_data, hne, Bool.false_eq_true, if_false, hrows,
    blockMainRows, blockUsedRows, apply_ite (Prod.fst)]

theorem upsert_projects_daily_data_eq (machine source : String) (now : Nat)
    (data : List (String × List DailyItem)) (st : Store) (h : data ≠ []) :
    (upsert_projects_daily_data machine source now data st).1 =
      { st with
        usageProjectsDaily :=
          (if (projectDates data).isEmpty then st.usageProjectsDaily
           else
             deleteWhere (fun r : ProjectDailyRow =>
                 r.date ∈ projectDates data ∧ r.machineName = machine ∧
                   r.source = source)
               st.usageProjectsDaily) ++
            projectMainRows machine source now data
        modelBreakdowns :=
          if (projectBreakdownRows machine source now data).isEmpty then st.modelBreakdowns
          else
            deleteWhere (fun r : BreakdownRow =>
                r.recordType = "project_daily" ∧ r.recordKey ∈ projectRecordKeys data ∧
                  r.source = source)
              st.modelBreakdowns ++ projectBreakdownRows machine source now data
        modelsUsed :=
          if (projectUsedRows machine source now data).isEmpty then st.modelsUsed
          else
            deleteWhere (fun r : ModelUsedRow =>
                r.recordType = "project_daily" ∧ r.recordKey ∈ projectRecordKeys data ∧
                  r.machineName = machine ∧ r.source = source)
              st.modelsUsed ++ projectUsedRows machine source now data } := by
  have hne : data.isEmpty = false := by simpa [List.isEmpty_iff] using h
  have hrd : (data.flatMap fun p =>
      p.2.map (projectDailyRowOf machine source p.1 now)).length =
      (data.flatMap fun p => p.2.map (·.date)).length := by
    rw [length_flatMap_map data (fun p => p.2), length_flatMap_map data (fun p => p.2)]
  by_cases hd : (data.flatMap fun p => p.2.map (·.date)).isEmpty = true
  · have hdl : (data.flatMap fun p => p.2.map (·.date)) = [] := List.isEmpty_iff.mp hd
    have hrows : (data.flatMap fun p =>
        p.2.map (projectDailyRowOf machine source p.1 now)) = [] := by
      have hl : (data.flatMap fun p =>
          p.2.map (projectDailyRowOf machine source p.1 now)).length = 0 := by
        rw [hrd, hdl]
        rfl
      exact List.length_eq_zero.mp hl
    simp only [upsert_projects_daily_data, hne, Bool.false_eq_true, if_false,
      projectDates, projectMainRows, projectBreakdownRows, projectUsedRows,
      projectRecordKeys, hd, hdl, hrows, List.isEmpty_nil, if_true,
      apply_ite (Prod.fst), List.append_nil]
  · have hd' : (data.flatMap fun p => p.2.map (·.date)).isEmpty = false := by
      simpa using hd
    have hrows : (data.flatMap fun p =>
        p.2.map (projectDailyRowOf machine source p.1 now)).isEmpty = false := by
      rw [isEmpty_eq_of_length_eq hrd]
      exact hd'
    simp only [upsert_projects_daily_data, hne, Bool.false_eq_true, if_false,
      projectDates, projectMainRows, projectBreakdownRows, projectUsedRows,
      projectRecordKeys, hd', hrows, apply_ite (Prod.fst)]

/-! ## The batches satisfy the WHERE clause of their own delete -/

theorem flatMap_map_isEmpty {α β γ δ : Type} (l : List α) (f : α → List β)
    (g : α → β → γ) (g' : α → β → δ) :
    (l.flatMap fun a => (f a).map (g a)).isEmpty =
      (l.flatMap fun a => (f a).map (g' a)).isEmpty :=
  isEmpty_eq_of_length_eq (by rw [length_flatMap_map, length_flatMap_map])

theorem length_flatMap_flatMap_map {α β γ δ : Type} (l : List α) (f : α → List β)
    (g : α → β → List γ) (h : α → β → γ → δ) :
    (l.flatMap fun a => (f a).flatMap fun b => (g a b).map (h a b)).length =
      (l.flatMap fun a => (f a).flatMap fun b => g a b).length := by
  induction l with
  | nil => rfl
  | cons x t ih =>
    simp only [List.flatMap_cons, List.length_append, ih,
      length_flatMap_map (f x) (g x) (h x)]

theorem dailyMainRows_pred (machine source : String) (now : Nat) (data : List DailyItem) :
    ∀ r ∈ dailyMainRows machine source now data,
      r.date ∈ data.map (·.date) ∧ r.machineName = machine ∧ r.source = source := by
  intro r hr
  obtain ⟨item, hitem, rfl⟩ := List.mem_map.mp hr
  exact ⟨List.mem_map_of_mem _ hitem, rfl, rfl⟩

theorem dailyBreakdownRows_pred (machine source : String) (now : Nat)
    (data : List DailyItem) :
    ∀ r ∈ dailyBreakdownRows machine source now data,
      r.recordType = "daily" ∧ r.recordKey ∈ data.map (·.date) ∧ r.source = source := by
  intro r hr
  simp only [dailyBreakdownRows, List.mem_flatMap, List.mem_map] at hr
  obtain ⟨item, hitem, b, _, rfl⟩ := hr
  exact ⟨rfl, List.mem_map_of_mem _ hitem, rfl⟩

theorem dailyUsedRows_pred (machine source : String) (now : Nat) (data : List DailyItem) :
    ∀ r ∈ dailyUsedRows machine source now data,
      r.recordType = "daily" ∧ r.recordKey ∈ data.map (·.date) ∧
        r.machineName = machine ∧ r.source = source := by
  intro r hr
  simp only [dailyUsedRows, List.mem_flatMap, List.mem_map] at hr
  obtain ⟨item, hitem, b, _, rfl⟩ := hr
  exact ⟨rfl, List.mem_map_of_mem _ hitem, rfl, rfl⟩

theorem monthlyMainRows_pred (machine source : String) (now : Nat)
    (data : List MonthlyItem) :
    ∀ r ∈ monthlyMainRows machine source now data,
      r.month ∈ data.map (·.month) ∧ r.machineName = machine ∧ r.source = source := by
  intro r hr
  obtain ⟨item, hitem, rfl⟩ := List.mem_map.mp hr
  exact ⟨List.mem_map_of_mem _ hitem, rfl, rfl⟩

theorem monthlyBreakdownRows_pred (machine source : String) (now : Nat)
    (data : List MonthlyItem) :
    ∀ r ∈ monthlyBreakdownRows machine source now data,
      r.recordType = "monthly" ∧ r.recordKey ∈ data.map (·.month) ∧ r.source = source := by
  intro r hr
  simp only [monthlyBreakdownRows, List.mem_flatMap, List.mem_map] at hr
  obtain ⟨item, hitem, b, _, rfl⟩ := hr
  exact ⟨rfl, List.mem_map_of_mem _ hitem, rfl⟩

theorem monthlyUsedRows_pred (machine source : String) (now : Nat)
    (data : List MonthlyItem) :
    ∀ r ∈ monthlyUsedRows machine source now data,
      r.recordType = "monthly" ∧ r.recordKey ∈ data.map (·.month) ∧
        r.machineName = machine ∧ r.source = source := by
  intro r hr
  simp only [monthlyUsedRows, List.mem_flatMap, List.mem_map] at hr
  obtain ⟨item, hitem, b, _, rfl⟩ := hr
  exact ⟨rfl, List.mem_map_of_mem _ hitem, rfl, rfl⟩

theorem sessionMainRows_pred (hashNames : Bool) (machine source : String) (now : Nat)
    (data : List SessionItem) :
    ∀ r ∈ sessionMainRows hashNames machine source now data,
      r.sessionId ∈ sessionKeys hashNames data ∧ r.machineName = machine ∧
        r.source = source := by
  intro r hr
  obtain ⟨item, hitem, rfl⟩ := List.mem_map.mp hr
  exact ⟨List.mem_map_of_mem _ hitem, rfl, rfl⟩

theorem sessionBreakdownRows_pred (hashNames : Bool) (machine source : String)
    (now : Nat) (data : List SessionItem) :
    ∀ r ∈ sessionBreakdownRows hashNames machine source now data,
      r.recordType = "session" ∧ r.recordKey ∈ sessionKeys hashNames data ∧
        r.source = source := by
  intro r hr
  simp only [sessionBreakdownRows, List.mem_flatMap, List.mem_map] at hr
  obtain ⟨item, hitem, b, _, rfl⟩ := hr
  exact ⟨rfl, List.mem_map_of_mem _ hitem, rfl⟩

theorem sessionUsedRows_pred (hashNames : Bool) (machine source : String) (now : Nat)
    (data : List SessionItem) :
    ∀ r ∈ sessionUsedRows hashNames machine source now data,
      r.recordType = "session" ∧ r.recordKey ∈ sessionKeys hashNames data ∧
        r.machineName = machine ∧ r.source = source := by
  intro r hr
  simp only [sessionUsedRows, List.mem_flatMap, List.mem_map] at hr
  obtain ⟨item, hitem, b, _, rfl⟩ := hr
  exact ⟨rfl, List.mem_map_of_mem _ hitem, rfl, rfl⟩

theorem blockMainRows_pred (machine source : String) (now : Nat) (data : List BlockItem) :
    ∀ r ∈ blockMainRows machine source now data,
      r.blockId ∈ data.map (·.id) ∧ r.machineName = machine ∧ r.source = source := by
  intro r hr
  obtain ⟨item, hitem, rfl⟩ := List.mem_map.mp hr
  exact ⟨List.mem_map_of_mem _ hitem, rfl, rfl⟩

theorem blockUsedRows_pred (machine source : String) (now : Nat) (data : List BlockItem) :
    ∀ r ∈ blockUsedRows machine source now data,
      r.recordType = "block" ∧ r.recordKey ∈ data.map (·.id) ∧
        r.machineName = machine ∧ r.source = source := by
  intro r hr
  simp only [blockUsedRows, List.mem_flatMap, List.mem_map] at hr
  obtain ⟨item, hitem, b, _, rfl⟩ := hr
  exact ⟨rfl, List.mem_map_of_mem _ hitem, rfl, rfl⟩

theorem projectMainRows_pred (machine source : String) (now : Nat)
    (data : List (String × List DailyItem)) :
    ∀ r ∈ projectMainRows machine source now data,
      r.date ∈ projectDates data ∧ r.machineName = machine ∧ r.source = source := by
  intro r hr
  simp only [projectMainRows, List.mem_flatMap, List.mem_map] at hr
  obtain ⟨p, hp, item, hitem, rfl⟩ := hr
  refine ⟨?_, rfl, rfl⟩
  simp only [projectDates, List.mem_flatMap, List.mem_map]
  exact ⟨p, hp, item, hitem, rfl⟩

theorem projectBreakdownRows_pred (machine source : String) (now : Nat)
    (data : List (String × List DailyItem)) :
    ∀ r ∈ projectBreakdownRows machine source now data,
      r.recordType = "project_daily" ∧ r.recordKey ∈ projectRecordKeys data ∧
        r.source = source := by
  intro r hr
  simp only [projectBreakdownRows, List.mem_flatMap, List.mem_map] at hr
  obtain ⟨p, hp, item, hitem, b, _, rfl⟩ := hr
  refine ⟨rfl, ?_, rfl⟩
  simp only [projectRecordKeys, List.mem_flatMap, List.mem_map]
  exact ⟨p, hp, item, hitem, rfl⟩

theorem projectUsedRows_pred (machine source : String) (now : Nat)
    (data : List (String × List DailyItem)) :
    ∀ r ∈ projectUsedRows machine source now data,
      r.recordType = "project_daily" ∧ r.recordKey ∈ projectRecordKeys data ∧
        r.machineName = machine ∧ r.source = source := by
  intro r hr
  simp only [projectUsedRows, List.mem_flatMap, List.mem_map] at hr
  obtain ⟨p, hp, item, hitem, b, _, rfl⟩ := hr
  refine ⟨rfl, ?_, rfl, rfl⟩
  simp only [projectRecordKeys, List.mem_flatMap, List.mem_map]
  exact ⟨p, hp, item, hitem, rfl⟩

/-! ## Idempotence of the upserts -/

theorem upsert_daily_idem (machine source : String) (t₁ t₂ : Nat)
    (data : List DailyItem) (st : Store) (h : data ≠ []) :
    (upsert_daily_data machine source t₂ data
      (upsert_daily_data machine source t₁ data st).1).1 =
      (upsert_daily_data machine source t₂ data st).1 := by
  rw [upsert_daily_data_eq machine source t₁ data st h,
    upsert_daily_data_eq machine source t₂ data _ h,
    upsert_daily_data_eq machine source t₂ data st h]
  dsimp only
  simp only [Store.mk.injEq]
  refine ⟨?_, trivial, trivial, trivial, trivial, ?_, ?_⟩
  · rw [deleteWhere_cancel _ _ _ (dailyMainRows_pred machine source t₁ data)]
  · have he : (dailyBreakdownRows machine source t₁ data).isEmpty =
        (dailyBreakdownRows machine source t₂ data).isEmpty :=
      flatMap_map_isEmpty data (fun i => i.modelBreakdowns) _ _
    cases h2 : (dailyBreakdownRows machine source t₂ data).isEmpty with
    | true => simp only [h2, he.trans h2, if_true]
    | false =>
      simp only [h2, he.trans h2, Bool.false_eq_true, if_false]
      rw [deleteWhere_cancel _ _ _ (dailyBreakdownRows_pred machine source t₁ data)]
  · have he : (dailyUsedRows machine source t₁ data).isEmpty =
        (dailyUsedRows machine source t₂ data).isEmpty :=
      flatMap_map_isEmpty data (fun i => i.modelsUsed) _ _
    cases h2 : (dailyUsedRows machine source t₂ data).isEmpty with
    | true => simp only [h2, he.trans h2, if_true]
    | false =>
      simp only [h2, he.trans h2, Bool.false_eq_true, if_false]
      rw [deleteWhere_cancel _ _ _ (dailyUsedRows_pred machine source t₁ data)]

theorem upsert_monthly_idem (machine source : String) (t₁ t₂ : Nat)
    (data : List MonthlyItem) (st : Store) (h : data ≠ []) :
    (upsert_monthly_data machine source t₂ data
      (upsert_monthly_data machine source t₁ data st).1).1 =
      (upsert_monthly_data machine source t₂ data st).1 := by
  rw [upsert_monthly_data_eq machine source t₁ data st h,
    upsert_monthly_data_eq machine source t₂ data _ h,
    upsert_monthly_data_eq machine source t₂ data st h]
  dsimp only
  simp only [Store.mk.injEq]
  refine ⟨trivial, ?_, trivial, trivial, trivial, ?_, ?_⟩
  · rw [deleteWhere_cancel _ _ _ (monthlyMainRows_pred machine source t₁ data)]
  · have he : (monthlyBreakdownRows machine source t₁ data).isEmpty =
        (monthlyBreakdownRows machine source t₂ data).isEmpty :=
      flatMap_map_isEmpty data (fun i => i.modelBreakdowns) _ _
    cases h2 : (monthlyBreakdownRows machine source t₂ data).isEmpty with
    | true => simp only [h2, he.trans h2, if_true]
    | false =>
      simp only [h2, he.trans h2, Bool.false_eq_true, if_false]
      rw [deleteWhere_cancel _ _ _ (monthlyBreakdownRows_pred machine source t₁ data)]
  · have he : (monthlyUsedRows machine source t₁ data).isEmpty =
        (monthlyUsedRows machine source t₂ data).isEmpty :=
      flatMap_map_isEmpty data (fun i => i.modelsUsed) _ _
    cases h2 : (monthlyUsedRows machine source t₂ data).isEmpty with
    | true => simp only [h2, he.trans h2, if_true]
    | false =>
      simp only [h2, he.trans h2, Bool.false_eq_true, if_false]
      rw [deleteWhere_cancel _ _ _ (monthlyUsedRows_pred machine source t₁ data)]

theorem upsert_session_idem (hashNames : Bool) (machine source : String) (t₁ t₂ : Nat)
    (data : List SessionItem) (st : Store) (h : data ≠ []) :
    (upsert_session_data hashNames machine source t₂ data
      (upsert_session_data hashNames machine source t₁ data st).1).1 =
      (upsert_session_data hashNames machine source t₂ data st).1 := by
  rw [upsert_session_data_eq hashNames machine source t₁ data st h,
    upsert_session_data_eq hashNames machine source t₂ data _ h,
    upsert_session_data_eq hashNames machine source t₂ data st h]
  dsimp only
  simp only [Store.mk.injEq]
  refine ⟨trivial, trivial, ?_, trivial, trivial, ?_, ?_⟩
  · rw [deleteWhere_cancel _ _ _ (sessionMainRows_pred hashNames machine source t₁ data)]
  · have he : (sessionBreakdownRows hashNames machine source t₁ data).isEmpty =
        (sessionBreakdownRows hashNames machine source t₂ data).isEmpty :=
      flatMap_map_isEmpty data (fun i => i.modelBreakdowns) _ _
    cases h2 : (sessionBreakdownRows hashNames machine source t₂ data).isEmpty with
    | true => simp only [h2, he.trans h2, if_true]
    | false =>
      simp only [h2, he.trans h2, Bool.false_eq_true, if_false]
      rw [deleteWhere_cancel _ _ _
        (sessionBreakdownRows_pred hashNames machine source t₁ data)]
  · have he : (sessionUsedRows hashNames machine source t₁ data).isEmpty =
        (sessionUsedRows hashNames machine source t₂ data).isEmpty :=
      flatMap_map_isEmpty data (fun i => i.modelsUsed) _ _
    cases h2 : (sessionUsedRows hashNames machine source t₂ data).isEmpty with
    | true => simp only [h2, he.trans h2, if_true]
    | false =>
      simp only [h2, he.trans h2, Bool.false_eq_true, if_false]
      rw [deleteWhere_cancel _ _ _ (sessionUsedRows_pred hashNames machine source t₁ data)]

theorem upsert_blocks_idem (machine source : String) (t₁ t₂ : Nat)
    (data : List BlockItem) (st : Store) (h : data ≠ []) :
    (upsert_blocks_data machine source t₂ data
      (upsert_blocks_data machine source t₁ data st).1).1 =
      (upsert_blocks_data machine source t₂ data st).1 := by
  rw [upsert_blocks_data_eq machine source t₁ data st h,
    upsert_blocks_data_eq machine source t₂ data _ h,
    upsert_blocks_data_eq machine source t₂ data st h]
  dsimp only
  simp only [Store.mk.injEq]
  refine ⟨trivial, trivial, trivial, ?_, trivial, trivial, ?_⟩
  · rw [deleteWhere_cancel _ _ _ (blockMainRows_pred machine source t₁ data)]
  · have he : (blockUsedRows machine source t₁ data).isEmpty =
        (blockUsedRows machine source t₂ data).isEmpty :=
      flatMap_map_isEmpty data (fun i => i.models.filter fun model => model ≠ "<synthetic>") _ _
    cases h2 : (blockUsedRows machine source t₂ data).isEmpty with
    | true => simp only [h2, he.trans h2, if_true]
    | false =>
      simp only [h2, he.trans h2, Bool.false_eq_true, if_false]
      rw [deleteWhere_cancel _ _ _ (blockUsedRows_pred machine source t₁ data)]

theorem upsert_projects_idem (machine source : String) (t₁ t₂ : Nat)
    (data : List (String × List DailyItem)) (st : Store) (h : data ≠ []) :
    (upsert_projects_daily_data machine source t₂ data
      (upsert_projects_daily_data machine source t₁ data st).1).1 =
      (upsert_projects_daily_data machine source t₂ data st).1 := by
  rw [upsert_projects_daily_data_eq machine source t₁ data st h,
    upsert_projects_daily_data_eq machine source t₂ data _ h,
    upsert_projects_daily_data_eq machine source t₂ data st h]
  dsimp only
  simp only [Store.mk.injEq]
  refine ⟨trivial, trivial, trivial, trivial, ?_, ?_, ?_⟩
  · cases hd : (projectDates data).isEmpty with
    | true =>
      have hrows : projectMainRows machine source t₁ data = [] := by
        apply List.length_eq_zero.mp
        rw [projectMainRows, length_flatMap_map data (fun p => p.2)]
        have : (projectDates data).length = 0 := by
          rw [List.isEmpty_iff.mp hd]
          rfl
        rw [projectDates, length_flatMap_map data (fun p => p.2)] at this
        exact this
      simp only [hd, if_true, hrows, List.append_nil]
    | false =>
      simp only [hd, Bool.false_eq_true, if_false]
      rw [deleteWhere_cancel _ _ _ (projectMainRows_pred machine source t₁ data)]
  · have he : (projectBreakdownRows machine source t₁ data).isEmpty =
        (projectBreakdownRows machine source t₂ data).isEmpty := by
      apply isEmpty_eq_of_length_eq
      rw [projectBreakdownRows, projectBreakdownRows,
        length_flatMap_flatMap_map data (fun p => p.2) (fun p item => item.modelBreakdowns),
        length_flatMap_flatMap_map data (fun p => p.2) (fun p item => item.modelBreakdowns)]
    cases h2 : (projectBreakdownRows machine source t₂ data).isEmpty with
    | true => simp only [h2, he.trans h2, if_true]
    | false =>
      simp only [h2, he.trans h2, Bool.false_eq_true, if_false]
      rw [deleteWhere_cancel _ _ _ (projectBreakdownRows_pred machine source t₁ data)]
  · have he : (projectUsedRows machine source t₁ data).isEmpty =
        (projectUsedRows machine source t₂ data).isEmpty := by
      apply isEmpty_eq_of_length_eq
      rw [projectUsedRows, projectUsedRows,
        length_flatMap_flatMap_map data (fun p => p.2) (fun p item => item.modelsUsed),
        length_flatMap_flatMap_map data (fun p => p.2) (fun p item => item.modelsUsed)]
    cases h2 : (projectUsedRows machine source t₂ data).isEmpty with
    | true => simp only [h2, he.trans h2, if_true]
    | false =>
      simp only [h2, he.trans h2, Bool.false_eq_true, if_false]
      rw [deleteWhere_cancel _ _ _ (projectUsedRows_pred machine source t₁ data)]

/-! # Claim theorems -/

/-- C1: For every non-empty list of records of any of the five kinds (daily,
monthly, session, blocks, project-daily) and every fixed machine name and
source tag, running the upsert twice consecutively with identical input
leaves the store in the same observable state (main-table rows,
model-breakdown rows, models-used rows) as running it once.  The wall clock
is threaded explicitly: the state after the repeated run (second call at
time `t₂`) equals the state of a single run at `t₂`, for every pair of call
times. -/
theorem upsert_twice_eq_once :
    (∀ (machine source : String) (t₁ t₂ : Nat) (data : List DailyItem) (st : Store),
      data ≠ [] →
        (upsert_daily_data machine source t₂ data
          (upsert_daily_data machine source t₁ data st).1).1 =
          (upsert_daily_data machine source t₂ data st).1) ∧
    (∀ (machine source : String) (t₁ t₂ : Nat) (data : List MonthlyItem) (st : Store),
      data ≠ [] →
        (upsert_monthly_data machine source t₂ data
          (upsert_monthly_data machine source t₁ data st).1).1 =
          (upsert_monthly_data machine source t₂ data st).1) ∧
    (∀ (hashNames : Bool) (machine source : String) (t₁ t₂ : Nat)
        (data : List SessionItem) (st : Store),
      data ≠ [] →
        (upsert_session_data hashNames machine source t₂ data
          (upsert_session_data hashNames machine source t₁ data st).1).1 =
          (upsert_session_data hashNames machine source t₂ data st).1) ∧
    (∀ (machine source : String) (t₁ t₂ : Nat) (data : List BlockItem) (st : Store),
      data ≠ [] →
        (upsert_blocks_data machine source t₂ data
          (upsert_blocks_data machine source t₁ data st).1).1 =
          (upsert_blocks_data machine source t₂ data st).1) ∧
    (∀ (machine source : String) (t₁ t₂ : Nat)
        (data : List (String × List DailyItem)) (st : Store),
      data ≠ [] →
        (upsert_projects_daily_data machine source t₂ data
          (upsert_projects_daily_data machine source t₁ data st).1).1 =
          (upsert_projects_daily_data machine source t₂ data st).1) :=
  ⟨fun machine source t₁ t₂ data st h => upsert_daily_idem machine source t₁ t₂ data st h,
   fun machine source t₁ t₂ data st h => upsert_monthly_idem machine source t₁ t₂ data st h,
   fun hashNames machine source t₁ t₂ data st h =>
     upsert_session_idem hashNames machine source t₁ t₂ data st h,
   fun machine source t₁ t₂ data st h => upsert_blocks_idem machine source t₁ t₂ data st h,
   fun machine source t₁ t₂ data st h =>
     upsert_projects_idem machine source t₁ t₂ data st h⟩

/-- Witness for C1 at a concrete daily record. -/
theorem upsert_twice_eq_once_witness :
    (upsert_daily_data "m" "ccusage" 2 [exDailyItem]
      (upsert_daily_data "m" "ccusage" 1 [exDailyItem] emptyStore).1).1 =
      (upsert_daily_data "m" "ccusage" 2 [exDailyItem] emptyStore).1 :=
  upsert_twice_eq_once.1 "m" "ccusage" 1 2 [exDailyItem] emptyStore
    (List.cons_ne_nil _ _)

/-- C6: For every record kind, running the upsert with an empty records
list issues zero store calls — no delete command, no query, no insert —
and leaves the store unchanged. -/
theorem upsert_empty_noop :
    (∀ (machine source : String) (now : Nat) (st : Store),
      upsert_daily_data machine source now [] st = (st, [])) ∧
    (∀ (machine source : String) (now : Nat) (st : Store),
      upsert_monthly_data machine source now [] st = (st, [])) ∧
    (∀ (hashNames : Bool) (machine source : String) (now : Nat) (st : Store),
      upsert_session_data hashNames machine source now [] st = (st, [])) ∧
    (∀ (machine source : String) (now : Nat) (st : Store),
      upsert_blocks_data machine source now [] st = (st, [])) ∧
    (∀ (machine source : String) (now : Nat) (st : Store),
      upsert_projects_daily_data machine source now [] st = (st, [])) :=
  ⟨fun _ _ _ _ => rfl, fun _ _ _ _ => rfl, fun _ _ _ _ _ => rfl,
   fun _ _ _ _ => rfl, fun _ _ _ _ => rfl⟩

/-! ## Hex-digest structure lemmas (for C7 and C8) -/

theorem length_hexOfBytes (bs : List Nat) : (hexOfBytes bs).length = 2 * bs.length := by
  induction bs with
  | nil => rfl
  | cons b t ih =>
    simp only [hexOfBytes, List.length_cons, ih]
    omega

theorem sha256Bytes_length (msg : List Nat) : (sha256Bytes msg).length = 32 := by
  simp [sha256Bytes, bytesBE4]

theorem md5Bytes_length (msg : List Nat) : (md5Bytes msg).length = 16 := by
  simp [md5Bytes, bytesLE4]

theorem mem_bytesBE4_lt (w : Nat) : ∀ b ∈ bytesBE4 w, b < 256 := by
  intro b hb
  simp only [bytesBE4, List.mem_cons, List.not_mem_nil, or_false] at hb
  rcases hb with rfl | rfl | rfl | rfl <;> exact Nat.mod_lt _ (by norm_num)

theorem mem_bytesLE4_lt (w : Nat) : ∀ b ∈ bytesLE4 w, b < 256 := by
  intro b hb
  simp only [bytesLE4, List.mem_cons, List.not_mem_nil, or_false] at hb
  rcases hb with rfl | rfl | rfl | rfl <;> exact Nat.mod_lt _ (by norm_num)

theorem sha256Bytes_lt (msg : List Nat) : ∀ b ∈ sha256Bytes msg, b < 256 := by
  intro b hb
  simp only [sha256Bytes, List.mem_append] at hb
  rcases hb with ((((((h | h) | h) | h) | h) | h) | h) | h <;> exact mem_bytesBE4_lt _ b h

theorem md5Bytes_lt (msg : List Nat) : ∀ b ∈ md5Bytes msg, b < 256 := by
  intro b hb
  simp only [md5Bytes, List.mem_append] at hb
  rcases hb with ((h | h) | h) | h <;> exact mem_bytesLE4_lt _ b h

theorem hexChar_mem (n : Nat) (h : n < 16) : hexChar n ∈ hexDigitsList := by
  interval_cases n <;> decide

theorem hexOfBytes_mem :
    ∀ bs : List Nat, (∀ b ∈ bs, b < 256) → ∀ c ∈ hexOfBytes bs, c ∈ hexDigitsList := by
  intro bs
  induction bs with
  | nil =>
    intro _ c hc
    cases hc
  | cons b t ih =>
    intro hb c hc
    simp only [hexOfBytes, List.mem_cons] at hc
    rcases hc with rfl | rfl | hc3
    · refine hexChar_mem _ ?_
      have := hb b (List.mem_cons_self _ _)
      omega
    · exact hexChar_mem _ (Nat.mod_lt _ (by norm_num))
    · exact ih (fun x hx => hb x (List.mem_cons_of_mem _ hx)) c hc3

/-- C7: the pseudonymisation function is deterministic — it is a pure
function of the input string alone (no clock, machine or store input), so
equal inputs give byte-identical outputs on any run or machine — and, with
hashing enabled (the module default `HASH_PROJECT_NAMES = True`), its
output is exactly 8 hexadecimal characters. -/
theorem hash_project_name_deterministic_hex8 (s : String) :
    (hash_project_name true s).length = 8 ∧
      ∀ c ∈ (hash_project_name true s).data, c ∈ hexDigitsList := by
  have hlen : (sha256HexDigest (utf8Encode s)).length = 64 := by
    rw [sha256HexDigest, length_hexOfBytes, sha256Bytes_length]
  constructor
  · show (String.mk ((sha256HexDigest (utf8Encode s)).take 8)).length = 8
    simp [String.length, List.length_take, hlen]
  · intro c hc
    have hc' : c ∈ (sha256HexDigest (utf8Encode s)).take 8 := hc
    exact hexOfBytes_mem _ (sha256Bytes_lt _) c (List.mem_of_mem_take hc')

/-- C2 (code-bug evidence): for the aggregator-produced daily record of the
single message `msgA` (input 10, output 20, cache-write 5, cache-read 7,
reasoning 0), the stored `totalTokens` is 37 = input + output + cache-read +
reasoning (src/ccusage_importer.py:750), while the sum of the record's four
token fields — what the spec's invariant and the repository's own models
and tests prescribe — is 42: the cache-write count is left out of the
total. -/
theorem aggregated_daily_total_omits_cache_write :
    ((aggregate_opencode_messages true [msgA]).daily.map fun r => r.totalTokens) =
      [37] ∧
    ((aggregate_opencode_messages true [msgA]).daily.map fun r =>
      r.inputTokens + r.outputTokens + r.cacheCreationTokens + r.cacheReadTokens) =
      [42] := by
  constructor <;> decide

/-- C9 counterexample: the daily upsert builds a models-used marker row for
the sentinel `"<synthetic>"` model instead of skipping it (only the blocks
upsert filters the sentinel). -/
theorem daily_upsert_builds_synthetic_marker :
    modelUsedRowOf "daily" "2025-01-01" "m" "ccusage" 0 "<synthetic>" ∈
      (upsert_daily_data "m" "ccusage" 0 [synDailyItem] emptyStore).1.modelsUsed := by
  decide

/-- C9 (amended): every models-used row a blocks upsert adds comes from a
non-synthetic entry of some block's model list (the sentinel is skipped),
one row per list entry; the daily upsert builds a marker row for every
entry of every record's `modelsUsed` — including a synthetic one — with no
sentinel filtering. -/
theorem models_used_markers :
    (∀ (machine source : String) (now : Nat) (data : List BlockItem) (st : Store),
      ∀ r ∈ (upsert_blocks_data machine source now data st).1.modelsUsed,
        r ∈ st.modelsUsed ∨
          (r.model ≠ "<synthetic>" ∧ ∃ item ∈ data, r.model ∈ item.models ∧
            r = modelUsedRowOf "block" item.id machine source now r.model)) ∧
    (∀ (machine source : String) (now : Nat) (data : List DailyItem) (st : Store),
      ∀ item ∈ data, ∀ model ∈ item.modelsUsed,
        modelUsedRowOf "daily" item.date machine source now model ∈
          (upsert_daily_data machine source now data st).1.modelsUsed) := by
  constructor
  · intro machine source now data st r hr
    by_cases h : data = []
    · subst h
      left
      exact hr
    · rw [upsert_blocks_data_eq machine source now data st h] at hr
      dsimp only at hr
      cases hu : (blockUsedRows machine source now data).isEmpty with
      | true =>
        rw [hu] at hr
        simp only [if_true] at hr
        left
        exact hr
      | false =>
        rw [hu] at hr
        simp only [Bool.false_eq_true, if_false] at hr
        rcases List.mem_append.mp hr with h1 | h2
        · left
          exact List.mem_of_mem_filter h1
        · right
          simp only [blockUsedRows, List.mem_flatMap, List.mem_map] at h2
          obtain ⟨item, hitem, m, hm, rfl⟩ := h2
          have hm2 := List.mem_filter.mp hm
          refine ⟨by simpa using hm2.2, item, hitem, hm2.1, rfl⟩
  · intro machine source now data st item hitem model hmodel
    have h : data ≠ [] := by
      rintro rfl
      cases hitem
    rw [upsert_daily_data_eq machine source now data st h]
    dsimp only
    have hmem : modelUsedRowOf "daily" item.date machine source now model ∈
        dailyUsedRows machine source now data := by
      simp only [dailyUsedRows, List.mem_flatMap, List.mem_map]
      exact ⟨item, hitem, model, hmodel, rfl⟩
    have hne : (dailyUsedRows machine source now data).isEmpty = false := by
      cases he : dailyUsedRows machine source now data with
      | nil =>
        rw [he] at hmem
        cases hmem
      | cons a l => rfl
    rw [hne]
    simp only [Bool.false_eq_true, if_false]
    exact List.mem_append_right _ hmem

/-- Witness for C9's amended theorem at a concrete blocks upsert row. -/
theorem models_used_markers_witness :
    modelUsedRowOf "block" "2024-12-31T00:00:00.000Z" "m" "ccusage" 0 "m1" ∈
        emptyStore.modelsUsed ∨
      ((modelUsedRowOf "block" "2024-12-31T00:00:00.000Z" "m" "ccusage" 0 "m1").model ≠
          "<synthetic>" ∧
        ∃ item ∈ [exBlockItem],
          (modelUsedRowOf "block" "2024-12-31T00:00:00.000Z" "m" "ccusage" 0
              "m1").model ∈ item.models ∧
            modelUsedRowOf "block" "2024-12-31T00:00:00.000Z" "m" "ccusage" 0 "m1" =
              modelUsedRowOf "block" item.id "m" "ccusage" 0
                (modelUsedRowOf "block" "2024-12-31T00:00:00.000Z" "m" "ccusage" 0
                  "m1").model) :=
  models_used_markers.1 "m" "ccusage" 0 [exBlockItem] emptyStore
    (modelUsedRowOf "block" "2024-12-31T00:00:00.000Z" "m" "ccusage" 0 "m1")
    (by decide)

/-- C10: for every non-empty project-daily payload, the main-table delete of
the projects upsert is keyed by date, machine and source only — so a stored
row of a project absent from the payload, but sharing a touched date, is
removed and not reinserted by the run. -/
theorem project_daily_cross_project_delete
    (machine source : String) (now : Nat) (data : List (String × List DailyItem))
    (st : Store) (r : ProjectDailyRow)
    (hdate : r.date ∈ projectDates data)
    (hm : r.machineName = machine) (hs : r.source = source)
    (hproj : r.projectId ∉ data.map Prod.fst) :
    r ∉ (upsert_projects_daily_data machine source now data st).1.usageProjectsDaily := by
  have h : data ≠ [] := by
    rintro rfl
    cases hdate
  rw [upsert_projects_daily_data_eq machine source now data st h]
  dsimp only
  intro hmem
  have hd : (projectDates data).isEmpty = false := by
    cases he : projectDates data with
    | nil =>
      rw [he] at hdate
      cases hdate
    | cons a l => rfl
  rw [hd] at hmem
  simp only [Bool.false_eq_true, if_false] at hmem
  rcases List.mem_append.mp hmem with h1 | h2
  · have hf := List.mem_filter.mp h1
    have hnp : r.date ∉ projectDates data ∨ ¬r.machineName = machine ∨
        ¬r.source = source := by
      simpa using hf.2
    rcases hnp with hx | hx | hx
    · exact hx hdate
    · exact hx hm
    · exact hx hs
  · simp only [projectMainRows, List.mem_flatMap, List.mem_map] at h2
    obtain ⟨p, hp, item, hitem, hre⟩ := h2
    apply hproj
    rw [← hre]
    simpa [projectDailyRowOf] using List.mem_map_of_mem Prod.fst hp

/-- Witness for C10: a stored row of project `proj-b` on the touched date
is gone after upserting a payload that only mentions `proj-a`. -/
theorem project_daily_cross_project_delete_witness :
    otherProjectRow ∉ (upsert_projects_daily_data "m" "ccusage" 9 exProjectsData
      { emptyStore with usageProjectsDaily := [otherProjectRow] }).1.usageProjectsDaily :=
  project_daily_cross_project_delete "m" "ccusage" 9 exProjectsData
    { emptyStore with usageProjectsDaily := [otherProjectRow] } otherProjectRow
    (by decide) (by decide) (by decide) (by decide)

/-- C4: the orchestrator's returned map has exactly one entry per submitted
probe, in completion order; a probe that fails (timeout, non-zero exit, bad
JSON, or an exception while collecting its result) contributes `{}` for its
key; and when every attempt of every probe fails the result is the map of
empty payloads — the function is total, so no exception escapes. -/
theorem fetch_keys_eq_order (env : String → Nat → AttemptOutcome) :
    ∀ order : List String,
      (fetch_ccusage_data_parallel env order).map Prod.fst = order := by
  intro order
  induction order with
  | nil => rfl
  | cons a t ih => simpa [fetch_ccusage_data_parallel] using ih

theorem fetch_parallel_partial_failure (env : String → Nat → AttemptOutcome)
    (order : List String) (horder : order.Perm (ccusageCommands.map Prod.fst)) :
    ((fetch_ccusage_data_parallel env order).map Prod.fst = order ∧
      ((fetch_ccusage_data_parallel env order).map Prod.fst).Perm
        ["daily", "monthly", "session", "blocks", "projects"]) ∧
    (∀ p ∈ fetch_ccusage_data_parallel env order, p.2 = probeResult env p.1) ∧
    ((∀ cmd i j, env cmd i ≠ AttemptOutcome.ok j) →
      ∀ p ∈ fetch_ccusage_data_parallel env order, p.2 = JValue.obj []) := by
  have hkeys := fetch_keys_eq_order env order
  refine ⟨⟨hkeys, ?_⟩, ?_, ?_⟩
  · rw [hkeys]
    exact horder
  · intro p hp
    simp only [fetch_ccusage_data_parallel, List.mem_map] at hp
    obtain ⟨k, _, rfl⟩ := hp
    rfl
  · intro hfail p hp
    have hval : ∀ cmd, probeResult env cmd = JValue.obj [] := by
      intro cmd
      rw [probeResult, run_ccusage_command]
      cases h0 : env ((ccusageCommands.lookup cmd).getD "") 0 with
      | ok j => exact absurd h0 (hfail _ _ j)
      | jsonDecodeError => rfl
      | raised => rfl
      | timeout =>
        cases h1 : env ((ccusageCommands.lookup cmd).getD "") 1 with
        | ok j => exact absurd h1 (hfail _ _ j)
        | timeout => rfl
        | calledProcessError => rfl
        | jsonDecodeError => rfl
        | raised => rfl
      | calledProcessError =>
        cases h1 : env ((ccusageCommands.lookup cmd).getD "") 1 with
        | ok j => exact absurd h1 (hfail _ _ j)
        | timeout => rfl
        | calledProcessError => rfl
        | jsonDecodeError => rfl
        | raised => rfl
    simp only [fetch_ccusage_data_parallel, List.mem_map] at hp
    obtain ⟨k, _, rfl⟩ := hp
    exact hval k

/-- Witness for C4: all five probes timing out on every attempt still
yields the five-key map (here evaluated through the theorem). -/
theorem fetch_parallel_partial_failure_witness :
    (fetch_ccusage_data_parallel envAllFail orderEx).map Prod.fst = orderEx ∧
      ((fetch_ccusage_data_parallel envAllFail orderEx).map Prod.fst).Perm
        ["daily", "monthly", "session", "blocks", "projects"] :=
  (fetch_parallel_partial_failure envAllFail orderEx (by decide)).1

/-! ## Key-sorted serialisation is representation-independent (C8) -/

theorem sorted_lt_of_sorted_le_nodup {α : Type} {l : List (String × α)}
    (hs : l.Sorted fun p q => p.1 ≤ q.1) (hn : (l.map Prod.fst).Nodup) :
    l.Sorted fun p q => p.1 < q.1 := by
  have hne : l.Pairwise fun p q : String × α => p.1 ≠ q.1 := List.pairwise_map.mp hn
  exact (hs.and hne).imp fun h => lt_of_le_of_ne h.1 h.2

theorem sortPairs_perm_eq {α : Type} {l₁ l₂ : List (String × α)}
    (hp : l₁.Perm l₂) (hn : (l₁.map Prod.fst).Nodup) : sortPairs l₁ = sortPairs l₂ := by
  haveI : IsTotal (String × α) fun p q => p.1 ≤ q.1 := ⟨fun a b => le_total a.1 b.1⟩
  haveI : IsTrans (String × α) fun p q => p.1 ≤ q.1 :=
    ⟨fun _ _ _ h1 h2 => le_trans h1 h2⟩
  have hperm : (sortPairs l₁).Perm (sortPairs l₂) :=
    ((List.perm_insertionSort _ l₁).trans hp).trans (List.perm_insertionSort _ l₂).symm
  have hn₁ : ((sortPairs l₁).map Prod.fst).Nodup :=
    (((List.perm_insertionSort _ l₁).map Prod.fst).nodup_iff).mpr hn
  have hn₂ : ((sortPairs l₂).map Prod.fst).Nodup :=
    (((List.perm_insertionSort _ l₂).map Prod.fst).nodup_iff).mpr
      ((hp.map Prod.fst).nodup_iff.mp hn)
  haveI : IsAntisymm (String × α) fun p q => p.1 < q.1 :=
    ⟨fun _ _ h1 h2 => absurd h2 (not_lt.mpr (le_of_lt h1))⟩
  exact List.eq_of_perm_of_sorted hperm
    (sorted_lt_of_sorted_le_nodup (List.sorted_insertionSort _ l₁) hn₁)
    (sorted_lt_of_sorted_le_nodup (List.sorted_insertionSort _ l₂) hn₂)

theorem dumpsJson_obj (fs : List (String × JValue)) :
    dumpsJson (JValue.obj fs) =
      '{' ::
        joinComma ((sortPairs (fs.map fun kv => (kv.1, dumpsJson kv.2))).map
          fun p => jsonQuote p.1 ++ ':' :: ' ' :: p.2) ++ ['}'] := by
  rw [dumpsJson]
  have hattach : (fs.attach.map fun x => (x.1.1, dumpsJson x.1.2)) =
      fs.map fun kv => (kv.1, dumpsJson kv.2) := by
    rw [← List.attach_map_coe fs fun kv => (kv.1, dumpsJson kv.2)]
  rw [hattach]

/-- C8: the payload fingerprint is deterministic — serialising with sorted
keys makes it independent of the dictionary's insertion order (two
representations of the same object, i.e. permuted duplicate-free field
lists, fingerprint identically) — and every fingerprint is exactly 12
lowercase hexadecimal characters.  (The source's `except` branch returning
`""` is unreachable for a parsed JSON payload, which always serialises.) -/
theorem calculate_data_hash_deterministic_12hex :
    (∀ fs₁ fs₂ : List (String × JValue), fs₁.Perm fs₂ → (fs₁.map Prod.fst).Nodup →
      calculate_data_hash (JValue.obj fs₁) = calculate_data_hash (JValue.obj fs₂)) ∧
    ∀ d : JValue, (calculate_data_hash d).length = 12 ∧
      ∀ c ∈ (calculate_data_hash d).data, c ∈ hexDigitsList := by
  constructor
  · intro fs₁ fs₂ hp hn
    have hdump : dumpsJson (JValue.obj fs₁) = dumpsJson (JValue.obj fs₂) := by
      rw [dumpsJson_obj, dumpsJson_obj]
      have hmp : (fs₁.map fun kv => (kv.1, dumpsJson kv.2)).Perm
          (fs₂.map fun kv => (kv.1, dumpsJson kv.2)) := hp.map _
      have hnd : ((fs₁.map fun kv => (kv.1, dumpsJson kv.2)).map Prod.fst).Nodup := by
        rw [List.map_map]
        exact hn
      rw [sortPairs_perm_eq hmp hnd]
    rw [calculate_data_hash, calculate_data_hash, hdump]
  · intro d
    have h32 : (md5HexDigest (utf8Encode ⟨dumpsJson d⟩)).length = 32 := by
      rw [md5HexDigest, length_hexOfBytes, md5Bytes_length]
    constructor
    · show (String.mk ((md5HexDigest (utf8Encode ⟨dumpsJson d⟩)).take 12)).length = 12
      simp [String.length, List.length_take, h32]
    · intro c hc
      have hc' : c ∈ (md5HexDigest (utf8Encode ⟨dumpsJson d⟩)).take 12 := hc
      exact hexOfBytes_mem _ (md5Bytes_lt _) c (List.mem_of_mem_take hc')

/-- Witness for C8: the same two-field object in either insertion order
fingerprints identically. -/
theorem calculate_data_hash_deterministic_12hex_witness :
    calculate_data_hash (JValue.obj [("b", JValue.int 1), ("a", JValue.null)]) =
      calculate_data_hash (JValue.obj [("a", JValue.null), ("b", JValue.int 1)]) :=
  calculate_data_hash_deterministic_12hex.1
    [("b", JValue.int 1), ("a", JValue.null)]
    [("a", JValue.null), ("b", JValue.int 1)]
    (List.Perm.swap ("a", JValue.null) ("b", JValue.int 1) [])
    (by decide)

/-- C5 counterexample: in the monolith controller
(src/ccusage_importer.py:2507) the fingerprint of the current fetch equals
the one stored with the most recent snapshot for this machine, yet the run
still issues upsert store calls and never reports "no new data" — the
identity check `_is_identical_import` is defined but not called there. -/
theorem monolith_upserts_despite_identical_fingerprint :
    is_identical_import "m" [savedSnapshot "m" 0 JValue.null] JValue.null = true ∧
    c5MonolithRun.calls ≠ [] ∧ c5MonolithRun.reportedNoNewData = false := by
  refine ⟨?_, ?_, rfl⟩
  · simp [is_identical_import, savedSnapshot]
  · decide

/-- C5 (amended): in the modular importer
(src/ccusage_import/importer.py:716–727), when the fingerprint of the
current fetch equals the fingerprint stored with the most recent snapshot
for this machine, the run reports "no new data" and returns with no store
calls — the transform/upsert phases are skipped entirely and the history is
left untouched; statistics are only re-read for reporting.  The monolithic
script computes and stores the same fingerprint but never consults it. -/
theorem modular_skips_on_identical_fingerprint
    (hashNames : Bool) (machine : String) (now : Nat) (allData : JValue)
    (data : FetchedData) (history : List ImportSnapshot) (st : Store)
    (h : is_identical_import machine history allData = true) :
    import_all_data_modular hashNames machine now allData data history st =
      { store := st, calls := [], reportedNoNewData := true, history := history } := by
  rw [import_all_data_modular, if_pos h]

/-- Witness for C5's amended theorem: a second run over the identical
payload is skipped. -/
theorem modular_skips_on_identical_fingerprint_witness :
    import_all_data_modular true "m" 1 JValue.null
      ⟨none, none, none, none, none⟩ [savedSnapshot "m" 0 JValue.null] emptyStore =
      { store := emptyStore, calls := [], reportedNoNewData := true,
        history := [savedSnapshot "m" 0 JValue.null] } :=
  modular_skips_on_identical_fingerprint true "m" 1 JValue.null
    ⟨none, none, none, none, none⟩ [savedSnapshot "m" 0 JValue.null] emptyStore
    (by simp [is_identical_import, savedSnapshot])

/-! ## Dictionary-update lemmas (for C3) -/

theorem find?_updateAssoc_self {α : Type} (k : String) (init : α) (f : α → α) :
    ∀ l : List (String × α),
      ((updateAssoc k init f l).find? fun p => p.1 == k) =
        some (k, f (((l.find? fun p => p.1 == k).map Prod.snd).getD init)) := by
  intro l
  induction l with
  | nil => simp [updateAssoc, List.find?]
  | cons p rest ih =>
    by_cases hpk : p.1 = k
    · subst hpk
      simp [updateAssoc, List.find?_cons]
    · have hb : (p.1 == k) = false := beq_eq_false_iff_ne.mpr hpk
      simp only [updateAssoc, if_neg hpk, List.find?_cons, hb]
      exact ih

theorem find?_updateAssoc_other {α : Type} (k : String) (init : α) (f : α → α)
    (d : String) (hd : d ≠ k) :
    ∀ l : List (String × α),
      ((updateAssoc k init f l).find? fun p => p.1 == d) =
        l.find? fun p => p.1 == d := by
  intro l
  induction l with
  | nil =>
    have hb : (k == d) = false := beq_eq_false_iff_ne.mpr (Ne.symm hd)
    simp [updateAssoc, List.find?, hb]
  | cons p rest ih =>
    by_cases hpk : p.1 = k
    · have hb : (p.1 == d) = false := beq_eq_false_iff_ne.mpr (hpk ▸ Ne.symm hd)
      simp only [updateAssoc, if_pos hpk, List.find?_cons, hb]
    · simp only [updateAssoc, if_neg hpk, List.find?_cons]
      cases hpd : (p.1 == d) with
      | true => rfl
      | false => exact ih

theorem mem_setAdd {s : List String} {a x : String} :
    x ∈ setAdd s a ↔ x ∈ s ∨ x = a := by
  rw [setAdd]
  by_cases h : a ∈ s
  · rw [if_pos h]
    constructor
    · exact Or.inl
    · rintro (hx | rfl)
      · exact hx
      · exact h
  · rw [if_neg h]
    simp [List.mem_append]

theorem groupView_addDailyGroup (m : OCMessage) (g : OCGroup) :
    groupView (addDailyGroup m g) = viewAdd m (groupView g) := by
  simp only [groupView, addDailyGroup, viewAdd, GroupView.mk.injEq]
  refine ⟨trivial, trivial, trivial, trivial, trivial, trivial, ?_, ?_⟩
  · funext x
    exact propext mem_setAdd
  · funext x
    by_cases hx : x = m.modelID
    · subst hx
      rw [if_pos rfl, find?_updateAssoc_self]
      rfl
    · have hx' : x ≠ m.modelID := hx
      rw [if_neg hx, find?_updateAssoc_other _ _ _ x hx']

theorem groupView_addGroupSums (m : OCMessage) (g : OCGroup) :
    groupView (addGroupSums m g) = viewAddSums m (groupView g) := by
  simp only [groupView, addGroupSums, viewAddSums, GroupView.mk.injEq]
  refine ⟨trivial, trivial, trivial, trivial, trivial, trivial, ?_, trivial⟩
  funext x
  exact propext mem_setAdd

theorem aggStep_dailyGroups (s : AggState) (m : OCMessage) :
    (aggStep s m).dailyGroups =
      if m.timeCreated = 0 then s.dailyGroups
      else
        updateAssoc (dateOfMs m.timeCreated) emptyOCGroup (addDailyGroup m)
          s.dailyGroups := by
  by_cases h : m.timeCreated = 0
  · simp [aggStep, h]
  · rw [aggStep, if_neg h, if_neg h]
    dsimp only
    split
    · rfl
    · split
      · split
        · rfl
        · rfl
      · rfl

theorem aggStep_monthlyGroups (s : AggState) (m : OCMessage) :
    (aggStep s m).monthlyGroups =
      if m.timeCreated = 0 then s.monthlyGroups
      else
        updateAssoc (monthOfMs m.timeCreated) emptyOCGroup (addGroupSums m)
          s.monthlyGroups := by
  by_cases h : m.timeCreated = 0
  · simp [aggStep, h]
  · rw [aggStep, if_neg h, if_neg h]
    dsimp only
    split
    · rfl
    · split
      · split
        · rfl
        · rfl
      · rfl

theorem stateDailyView_step (s : AggState) (m : OCMessage) :
    stateDailyView (aggStep s m) = absDailyStep (stateDailyView s) m := by
  by_cases h : m.timeCreated = 0
  · funext d
    rw [stateDailyView, aggStep_dailyGroups, if_pos h, absDailyStep, if_pos h]
    rfl
  · funext d
    rw [stateDailyView, aggStep_dailyGroups, if_neg h, absDailyStep, if_neg h]
    by_cases hd : d = dateOfMs m.timeCreated
    · subst hd
      rw [find?_updateAssoc_self, if_pos rfl]
      cases hfind : s.dailyGroups.find? fun p => p.1 == dateOfMs m.timeCreated with
      | none => simp [stateDailyView, hfind, groupView_addDailyGroup]
      | some q => simp [stateDailyView, hfind, groupView_addDailyGroup]
    · rw [find?_updateAssoc_other _ _ _ d hd, if_neg hd]
      rfl

theorem stateMonthlyView_step (s : AggState) (m : OCMessage) :
    stateMonthlyView (aggStep s m) = absMonthlyStep (stateMonthlyView s) m := by
  by_cases h : m.timeCreated = 0
  · funext d
    rw [stateMonthlyView, aggStep_monthlyGroups, if_pos h, absMonthlyStep, if_pos h]
    rfl
  · funext d
    rw [stateMonthlyView, aggStep_monthlyGroups, if_neg h, absMonthlyStep, if_neg h]
    by_cases hd : d = monthOfMs m.timeCreated
    · subst hd
      rw [find?_updateAssoc_self, if_pos rfl]
      cases hfind : s.monthlyGroups.find? fun p => p.1 == monthOfMs m.timeCreated with
      | none => simp [stateMonthlyView, hfind, groupView_addGroupSums]
      | some q => simp [stateMonthlyView, hfind, groupView_addGroupSums]
    · rw [find?_updateAssoc_other _ _ _ d hd, if_neg hd]
      rfl

theorem stateDailyView_foldl :
    ∀ (l : List OCMessage) (s : AggState),
      stateDailyView (l.foldl aggStep s) = l.foldl absDailyStep (stateDailyView s) := by
  intro l
  induction l with
  | nil => intro s; rfl
  | cons m t ih =>
    intro s
    rw [List.foldl_cons, List.foldl_cons, ih, stateDailyView_step]

theorem stateMonthlyView_foldl :
    ∀ (l : List OCMessage) (s : AggState),
      stateMonthlyView (l.foldl aggStep s) = l.foldl absMonthlyStep (stateMonthlyView s) := by
  intro l
  induction l with
  | nil => intro s; rfl
  | cons m t ih =>
    intro s
    rw [List.foldl_cons, List.foldl_cons, ih, stateMonthlyView_step]

theorem addToBreakdown_comm (m₁ m₂ : OCMessage) (b : BreakdownItem) :
    addToBreakdown m₂ (addToBreakdown m₁ b) = addToBreakdown m₁ (addToBreakdown m₂ b) := by
  simp only [addToBreakdown, BreakdownItem.mk.injEq]
  refine ⟨trivial, by ring, by ring, by ring, by ring, by ring⟩

theorem viewAdd_comm (m₁ m₂ : OCMessage) (v : GroupView) :
    viewAdd m₂ (viewAdd m₁ v) = viewAdd m₁ (viewAdd m₂ v) := by
  simp only [viewAdd, GroupView.mk.injEq]
  refine ⟨by ring, by ring, by ring, by ring, by ring, by ring, ?_, ?_⟩
  · funext x
    apply propext
    tauto
  · funext x
    by_cases h1 : x = m₁.modelID <;> by_cases h2 : x = m₂.modelID
    · rw [if_pos h2, if_pos h1, if_pos h1, if_pos h2]
      have hid : m₁.modelID = m₂.modelID := h1 ▸ h2
      cases hb : v.breakdown x with
      | none =>
        simp only [hb, Option.getD_none, Option.getD_some]
        rw [hid]
        exact congrArg some (addToBreakdown_comm m₁ m₂ _)
      | some b =>
        simp only [hb, Option.getD_some]
        exact congrArg some (addToBreakdown_comm m₁ m₂ b)
    · rw [if_neg h2, if_pos h1, if_pos h1, if_neg h2]
    · rw [if_pos h2, if_neg h1, if_neg h1, if_pos h2]
    · rw [if_neg h2, if_neg h1, if_neg h1, if_neg h2]

theorem viewAddSums_comm (m₁ m₂ : OCMessage) (v : GroupView) :
    viewAddSums m₂ (viewAddSums m₁ v) = viewAddSums m₁ (viewAddSums m₂ v) := by
  simp only [viewAddSums, GroupView.mk.injEq]
  refine ⟨by ring, by ring, by ring, by ring, by ring, by ring, ?_, trivial⟩
  funext x
  apply propext
  tauto

theorem absDailyStep_comm (v : String → Option GroupView) (m₁ m₂ : OCMessage) :
    absDailyStep (absDailyStep v m₁) m₂ = absDailyStep (absDailyStep v m₂) m₁ := by
  by_cases h1 : m₁.timeCreated = 0 <;> by_cases h2 : m₂.timeCreated = 0 <;>
    simp only [absDailyStep, h1, h2, if_true, if_false]
  funext d
  by_cases hd1 : d = dateOfMs m₁.timeCreated <;>
    by_cases hd2 : d = dateOfMs m₂.timeCreated
  · simp only [if_pos hd1, if_pos hd2, Option.getD_some]
    exact congrArg some (viewAdd_comm m₁ m₂ _)
  · simp only [if_pos hd1, if_neg hd2]
  · simp only [if_neg hd1, if_pos hd2]
  · simp only [if_neg hd1, if_neg hd2]

theorem absMonthlyStep_comm (v : String → Option GroupView) (m₁ m₂ : OCMessage) :
    absMonthlyStep (absMonthlyStep v m₁) m₂ = absMonthlyStep (absMonthlyStep v m₂) m₁ := by
  by_cases h1 : m₁.timeCreated = 0 <;> by_cases h2 : m₂.timeCreated = 0 <;>
    simp only [absMonthlyStep, h1, h2, if_true, if_false]
  funext d
  by_cases hd1 : d = monthOfMs m₁.timeCreated <;>
    by_cases hd2 : d = monthOfMs m₂.timeCreated
  · simp only [if_pos hd1, if_pos hd2, Option.getD_some]
    exact congrArg some (viewAddSums_comm m₁ m₂ _)
  · simp only [if_pos hd1, if_neg hd2]
  · simp only [if_neg hd1, if_pos hd2]
  · simp only [if_neg hd1, if_neg hd2]

theorem mem_insertStr {x y : String} : ∀ {s : List String}, x ∈ insertStr y s ↔ x = y ∨ x ∈ s := by
  intro s
  induction s with
  | nil => simp [insertStr]
  | cons z t ih =>
    rw [insertStr]
    by_cases h : y ≤ z
    · rw [if_pos h]
      simp [List.mem_cons]
    · rw [if_neg h]
      simp only [List.mem_cons, ih]
      tauto

theorem mem_sortStrings {x : String} : ∀ {s : List String}, x ∈ sortStrings s ↔ x ∈ s := by
  intro s
  induction s with
  | nil => simp [sortStrings]
  | cons z t ih =>
    rw [sortStrings]
    rw [mem_insertStr, ih]
    simp [List.mem_cons]

theorem find?_map_snd_modelName (x : String) :
    ∀ bl : List (String × BreakdownItem), GoodBreakdowns bl →
      ((bl.map (·.2)).find? fun b => b.modelName == x) =
        (bl.find? fun q => q.1 == x).map (·.2) := by
  intro bl
  induction bl with
  | nil => intro _; rfl
  | cons q rest ih =>
    intro hg
    have hq : q.2.modelName = q.1 := hg q (List.mem_cons_self _ _)
    rw [List.map_cons]
    cases hqx : (q.1 == x) with
    | true =>
      have hbm : (q.2.modelName == x) = true := by
        rw [hq]
        exact hqx
      simp [List.find?, hbm, hqx]
    | false =>
      have hbm : (q.2.modelName == x) = false := by
        rw [hq]
        exact hqx
      simp only [List.find?, hbm, hqx]
      exact ih fun r hr => hg r (List.mem_cons_of_mem _ hr)

theorem dailyRecordView_toDailyRecord (p : String × OCGroup)
    (hg : GoodBreakdowns p.2.modelBreakdowns) :
    dailyRecordView (toDailyRecord p) = groupView p.2 := by
  simp only [dailyRecordView, toDailyRecord, groupView, GroupView.mk.injEq]
  refine ⟨trivial, trivial, trivial, trivial, trivial, trivial, ?_, ?_⟩
  · funext x
    exact propext mem_sortStrings
  · funext x
    exact find?_map_snd_modelName x p.2.modelBreakdowns hg

theorem monthlyRecordView_toMonthlyRecord (p : String × OCGroup)
    (hg : GoodBreakdowns p.2.modelBreakdowns) :
    monthlyRecordView (toMonthlyRecord p) = groupView p.2 := by
  simp only [monthlyRecordView, toMonthlyRecord, groupView, GroupView.mk.injEq]
  refine ⟨trivial, trivial, trivial, trivial, trivial, trivial, ?_, ?_⟩
  · funext x
    exact propext mem_sortStrings
  · funext x
    exact find?_map_snd_modelName x p.2.modelBreakdowns hg

theorem updateAssoc_forall {α : Type} (P : String × α → Prop) (k : String) (init : α)
    (f : α → α) (hnew : P (k, f init)) (hstep : ∀ p : String × α, P p → P (p.1, f p.2)) :
    ∀ l, (∀ p ∈ l, P p) → ∀ p ∈ updateAssoc k init f l, P p := by
  intro l
  induction l with
  | nil =>
    intro _ p hp
    rw [updateAssoc] at hp
    rcases List.mem_cons.mp hp with rfl | hp2
    · exact hnew
    · cases hp2
  | cons q rest ih =>
    intro hl p hp
    rw [updateAssoc] at hp
    by_cases hqk : q.1 = k
    · rw [if_pos hqk] at hp
      rcases List.mem_cons.mp hp with rfl | hp2
      · exact hstep q (hl q (List.mem_cons_self _ _))
      · exact hl p (List.mem_cons_of_mem _ hp2)
    · rw [if_neg hqk] at hp
      rcases List.mem_cons.mp hp with rfl | hp2
      · exact hl p (List.mem_cons_self _ _)
      · exact ih (fun r hr => hl r (List.mem_cons_of_mem _ hr)) p hp2

theorem goodBreakdowns_addDailyGroup (m : OCMessage) (g : OCGroup)
    (h : GoodBreakdowns g.modelBreakdowns) :
    GoodBreakdowns (addDailyGroup m g).modelBreakdowns := by
  intro q hq
  exact updateAssoc_forall (fun q => q.2.modelName = q.1) m.modelID
    (emptyBreakdown m.modelID) (addToBreakdown m) rfl
    (fun p hp => by simpa [addToBreakdown] using hp)
    g.modelBreakdowns (fun p hp => h p hp) q hq

theorem goodGroups_aggStep_daily (s : AggState) (m : OCMessage)
    (h : GoodGroups s.dailyGroups) : GoodGroups (aggStep s m).dailyGroups := by
  rw [aggStep_dailyGroups]
  by_cases ht : m.timeCreated = 0
  · rw [if_pos ht]
    exact h
  · rw [if_neg ht]
    exact updateAssoc_forall (fun p => GoodBreakdowns p.2.modelBreakdowns) _ _ _
      (goodBreakdowns_addDailyGroup m emptyOCGroup fun q hq => by cases hq)
      (fun p hp => goodBreakdowns_addDailyGroup m p.2 hp)
      s.dailyGroups (fun p hp => h p hp)

theorem goodGroups_aggStep_monthly (s : AggState) (m : OCMessage)
    (h : GoodGroups s.monthlyGroups) : GoodGroups (aggStep s m).monthlyGroups := by
  rw [aggStep_monthlyGroups]
  by_cases ht : m.timeCreated = 0
  · rw [if_pos ht]
    exact h
  · rw [if_neg ht]
    refine updateAssoc_forall (fun p => GoodBreakdowns p.2.modelBreakdowns) _ _ _
      ?_ ?_ s.monthlyGroups (fun p hp => h p hp)
    · intro q hq
      rw [addGroupSums] at hq
      cases hq
    · intro p hp q hq
      rw [addGroupSums] at hq
      exact hp q hq

theorem goodGroups_foldl_daily :
    ∀ (l : List OCMessage) (s : AggState), GoodGroups s.dailyGroups →
      GoodGroups (l.foldl aggStep s).dailyGroups := by
  intro l
  induction l with
  | nil => intro s h; exact h
  | cons m t ih =>
    intro s h
    exact ih (aggStep s m) (goodGroups_aggStep_daily s m h)

theorem goodGroups_foldl_monthly :
    ∀ (l : List OCMessage) (s : AggState), GoodGroups s.monthlyGroups →
      GoodGroups (l.foldl aggStep s).monthlyGroups := by
  intro l
  induction l with
  | nil => intro s h; exact h
  | cons m t ih =>
    intro s h
    exact ih (aggStep s m) (goodGroups_aggStep_monthly s m h)

theorem dailyRollupView_eq_stateView (hashNames : Bool) (l : List OCMessage)
    (hne : (l.filter fun m => m.role == "assistant").isEmpty = false) :
    dailyRollupView (aggregate_opencode_messages hashNames l).daily =
      stateDailyView
        ((l.filter fun m => m.role == "assistant").foldl aggStep emptyAggState) := by
  funext d
  rw [aggregate_opencode_messages]
  rw [hne]
  simp only [Bool.false_eq_true, if_false]
  rw [dailyRollupView, stateDailyView, List.find?_map]
  have hcomp : ((fun r : DailyItem => r.date == d) ∘ toDailyRecord) =
      fun p : String × OCGroup => p.1 == d := rfl
  rw [hcomp]
  cases hf : ((l.filter fun m => m.role == "assistant").foldl aggStep
      emptyAggState).dailyGroups.find? fun p => p.1 == d with
  | none => rfl
  | some p =>
    show some (dailyRecordView (toDailyRecord p)) = some (groupView p.2)
    refine congrArg some (dailyRecordView_toDailyRecord p ?_)
    refine goodGroups_foldl_daily (l.filter fun m => m.role == "assistant")
      emptyAggState (fun q hq => by cases hq) p ?_
    exact List.mem_of_find?_eq_some hf

theorem monthlyRollupView_eq_stateView (hashNames : Bool) (l : List OCMessage)
    (hne : (l.filter fun m => m.role == "assistant").isEmpty = false) :
    monthlyRollupView (aggregate_opencode_messages hashNames l).monthly =
      stateMonthlyView
        ((l.filter fun m => m.role == "assistant").foldl aggStep emptyAggState) := by
  funext d
  rw [aggregate_opencode_messages]
  rw [hne]
  simp only [Bool.false_eq_true, if_false]
  rw [monthlyRollupView, stateMonthlyView, List.find?_map]
  have hcomp : ((fun r : MonthlyItem => r.month == d) ∘ toMonthlyRecord) =
      fun p : String × OCGroup => p.1 == d := rfl
  rw [hcomp]
  cases hf : ((l.filter fun m => m.role == "assistant").foldl aggStep
      emptyAggState).monthlyGroups.find? fun p => p.1 == d with
  | none => rfl
  | some p =>
    show some (monthlyRecordView (toMonthlyRecord p)) = some (groupView p.2)
    refine congrArg some (monthlyRecordView_toMonthlyRecord p ?_)
    refine goodGroups_foldl_monthly (l.filter fun m => m.role == "assistant")
      emptyAggState (fun q hq => by cases hq) p ?_
    exact List.mem_of_find?_eq_some hf

/-- C3 counterexample: the rollup record lists follow first-appearance
order, so aggregating two messages of different days in swapped order
yields a different (reordered) result — not an identical one. -/
theorem aggregate_not_order_invariant :
    [msgA, msgB].Perm [msgB, msgA] ∧
      aggregate_opencode_messages true [msgA, msgB] ≠
        aggregate_opencode_messages true [msgB, msgA] := by
  constructor
  · exact List.Perm.swap msgB msgA []
  · decide

/-- C3 (amended): aggregating a permuted copy of the event list yields the
same daily and monthly rollups up to ordering — for every calendar day and
month, the two runs produce a record with the same token sums, total cost,
set of models used, and per-model breakdown entries; only the order of the
emitted record lists (and of the breakdown entries inside them) can differ.
Session and project-daily rollups additionally depend on which
path-bearing message is seen first, so they are excluded from the
order-free equality. -/
theorem aggregate_perm_invariant (hashNames : Bool) (l₁ l₂ : List OCMessage)
    (hperm : l₁.Perm l₂) :
    dailyRollupView (aggregate_opencode_messages hashNames l₁).daily =
      dailyRollupView (aggregate_opencode_messages hashNames l₂).daily ∧
    monthlyRollupView (aggregate_opencode_messages hashNames l₁).monthly =
      monthlyRollupView (aggregate_opencode_messages hashNames l₂).monthly := by
  have hfp : (l₁.filter fun m => m.role == "assistant").Perm
      (l₂.filter fun m => m.role == "assistant") := hperm.filter _
  cases he : (l₁.filter fun m => m.role == "assistant").isEmpty with
  | true =>
    have h1 : (l₁.filter fun m => m.role == "assistant") = [] := List.isEmpty_iff.mp he
    have h2 : (l₂.filter fun m => m.role == "assistant") = [] := by
      rw [h1] at hfp
      exact hfp.symm.eq_nil
    constructor <;>
      rw [aggregate_opencode_messages, aggregate_opencode_messages, h1, h2]
  | false =>
    have he₂ : (l₂.filter fun m => m.role == "assistant").isEmpty = false := by
      rw [← isEmpty_eq_of_length_eq hfp.length_eq]
      exact he
    haveI : RightCommutative absDailyStep := ⟨absDailyStep_comm⟩
    haveI : RightCommutative absMonthlyStep := ⟨absMonthlyStep_comm⟩
    constructor
    · rw [dailyRollupView_eq_stateView hashNames l₁ he,
        dailyRollupView_eq_stateView hashNames l₂ he₂,
        stateDailyView_foldl, stateDailyView_foldl]
      exact hfp.foldl_eq _
    · rw [monthlyRollupView_eq_stateView hashNames l₁ he,
        monthlyRollupView_eq_stateView hashNames l₂ he₂,
        stateMonthlyView_foldl, stateMonthlyView_foldl]
      exact hfp.foldl_eq _

/-- Witness for C3's amended theorem: the two swapped-order runs agree on
the canonical daily and monthly views. -/
theorem aggregate_perm_invariant_witness :
    dailyRollupView (aggregate_opencode_messages true [msgA, msgB]).daily =
      dailyRollupView (aggregate_opencode_messages true [msgB, msgA]).daily ∧
    monthlyRollupView (aggregate_opencode_messages true [msgA, msgB]).monthly =
      monthlyRollupView (aggregate_opencode_messages true [msgB, msgA]).monthly :=
  aggregate_perm_invariant true [msgA, msgB] [msgB, msgA] (List.Perm.swap msgB msgA [])

